import Mathlib

/-!
# Verification of the NFL play-by-play feature pipeline

This file gives a shallow embedding, in Lean 4, of the algorithmic core of the
`nfl-pbp` pipeline (stat-calculator aggregation, trend/rolling-window
accumulation, collation favorite resolution, and the evaluation/bucketing
engine), and proves or refutes the stated correctness claims about it.

Modelling conventions, used throughout:

* JavaScript numbers are modelled as `ℚ`.  A numeric field that may be
  `undefined`/`null`/`NaN` (all of which the source code treats as "no usable
  number", via `toNumber`/`Number.isNaN` guards) is modelled as `Option ℚ`
  with `none` for the unusable cases.
* A JS `Record<string, number>` (the per-team stat block) is modelled as an
  insertion-ordered association list `List (String × ℚ)`; assignment keeps the
  position of an existing key and appends a fresh key, exactly as JS object
  key insertion order behaves.
* String fields that the code tests for truthiness (`if (!team) ...`) are
  modelled as `Option String`, with `none` and `some ""` both falsy.
* `Math.sqrt` (used only for RMSE) is irrational-valued; we model the mean
  squared error (`mse`) instead, of which the source's `rmse` is the square
  root.  Membership of a row in the RMSE computation is equivalent to its
  membership in the MSE computation.
-/

namespace NflPbp

/-- A JS number that may be `NaN`/`undefined`/`null` (modelled as `none`). -/
abbrev NumJS := Option ℚ

/-- Truthiness of an optional JS string: `undefined`/`null`/`""` are falsy. -/
def strTruthy (s : Option String) : Bool :=
  match s with
  | none => false
  | some s => s ≠ ""

/-- The per-team stat mapping `Record<string, number>`, as an
insertion-ordered association list. -/
abbrev StatBlock := List (String × ℚ)

namespace StatBlock

/-- Key lookup (`stats[key]`), returning `none` for an absent key. -/
def lookup (b : StatBlock) (k : String) : Option ℚ :=
  match b with
  | [] => none
  | (k', v) :: t => if k' = k then some v else lookup t k

/-- Lookup with JS `?? 0` defaulting (`stats[key] ?? 0`). -/
def getD (b : StatBlock) (k : String) : ℚ :=
  (b.lookup k).getD 0

/-- JS object assignment `stats[key] = value`: overwrite in place when the key
exists, else append (JS records keep first-insertion key order). -/
def set (b : StatBlock) (k : String) (v : ℚ) : StatBlock :=
  match b with
  | [] => [(k, v)]
  | (k', v') :: t => if k' = k then (k', v) :: t else (k', v') :: set t k v

/-- Key presence test (`stats[key] !== undefined`). -/
def hasKey (b : StatBlock) (k : String) : Bool :=
  (b.lookup k).isSome

theorem lookup_set (b : StatBlock) (k k' : String) (v : ℚ) :
    (b.set k v).lookup k' = if k = k' then some v else b.lookup k' := by
  induction b with
  | nil =>
    by_cases h : k = k' <;> simp [set, lookup, h]
  | cons hd t ih =>
    obtain ⟨k₀, v₀⟩ := hd
    by_cases h₀ : k₀ = k
    · subst h₀
      by_cases h : k₀ = k' <;> simp [set, lookup, h]
    · by_cases h : k₀ = k'
      · subst h
        have : ¬ k = k₀ := fun hk => h₀ hk.symm
        simp [set, lookup, h₀, this]
      · simp [set, lookup, h₀, h, ih]

theorem lookup_set_self (b : StatBlock) (k : String) (v : ℚ) :
    (b.set k v).lookup k = some v := by
  simp [lookup_set]

theorem lookup_set_ne (b : StatBlock) {k k' : String} (v : ℚ) (h : k ≠ k') :
    (b.set k v).lookup k' = b.lookup k' := by
  simp [lookup_set, h]

theorem getD_set_self (b : StatBlock) (k : String) (v : ℚ) :
    (b.set k v).getD k = v := by
  simp [getD, lookup_set_self]

theorem getD_set_ne (b : StatBlock) {k k' : String} (v : ℚ) (h : k ≠ k') :
    (b.set k v).getD k' = b.getD k' := by
  simp [getD, lookup_set_ne _ _ h]

theorem getD_set_ne2 (b : StatBlock) {k k' : String} (v : ℚ) (h : k' ≠ k) :
    (b.set k v).getD k' = b.getD k' :=
  getD_set_ne b v (Ne.symm h)

end StatBlock

/-- The ubiquitous guarded division
`safeDiv = (num, denom) => (denom > 0 ? num / denom : 0)`. -/
def safeDiv (num denom : ℚ) : ℚ :=
  if 0 < denom then num / denom else 0

theorem safeDiv_zero (num : ℚ) : safeDiv num 0 = 0 := by
  simp [safeDiv]

/-! ## Evaluation engine: spread-cover correctness (`08_evaluate_margin_model.ts`)

`computeMetrics` marks a row correct by
`predictedDiff === 0 || actualDiff === 0 ? true : predictedDiff * actualDiff >= 0`.
-/

/-- The per-row cover-correctness test of `computeMetrics`
(`src/steps/08_evaluate_margin_model.ts`). -/
def coverCorrect (predicted_margin actual_margin spread : ℚ) : Bool :=
  let predictedDiff := predicted_margin - spread
  let actualDiff := actual_margin - spread
  if predictedDiff = 0 ∨ actualDiff = 0 then true
  else decide (predictedDiff * actualDiff ≥ 0)

/-- C6: the prediction is counted correct iff the two spread-relative
differences have the same sign, with either difference being exactly zero
counted as correct; including the two boundary examples from the claim. -/
theorem C6_cover_rule :
    (∀ pm am s : ℚ,
      coverCorrect pm am s = true ↔
        (pm - s = 0 ∨ am - s = 0 ∨
          (0 < pm - s ∧ 0 < am - s) ∨ (pm - s < 0 ∧ am - s < 0))) ∧
    coverCorrect 3 3 3 = true ∧
    coverCorrect 10 (-2) 3 = false := by
  refine ⟨fun pm am s => ?_, by norm_num [coverCorrect], by norm_num [coverCorrect]⟩
  by_cases hp : pm - s = 0
  · simp [coverCorrect, hp]
  · by_cases ha : am - s = 0
    · simp [coverCorrect, ha]
    · simp only [coverCorrect, hp, ha, or_self, if_false, false_or, or_false,
        decide_eq_true_eq, ge_iff_le]
      rw [mul_nonneg_iff]
      constructor
      · rintro (⟨u, v⟩ | ⟨u, v⟩)
        · exact Or.inl ⟨lt_of_le_of_ne u (Ne.symm hp), lt_of_le_of_ne v (Ne.symm ha)⟩
        · exact Or.inr ⟨lt_of_le_of_ne u hp, lt_of_le_of_ne v ha⟩
      · rintro (⟨u, v⟩ | ⟨u, v⟩)
        · exact Or.inl ⟨le_of_lt u, le_of_lt v⟩
        · exact Or.inr ⟨le_of_lt u, le_of_lt v⟩

/-! ## Collation: favorite/underdog resolution (`04_collate_data.ts`) -/

/-- The slice of a game-metadata row used by `determineFavorite`:
team codes (possibly absent/empty) and `Number(meta.spread_line)`
(`none` = `NaN`, i.e. missing or non-numeric). -/
structure CollateMeta where
  home_team : Option String
  away_team : Option String
  spread_line : NumJS

/-- `determineFavorite` of `src/steps/04_collate_data.ts`: `null` when a team
code is falsy or the spread is `NaN`; otherwise favorite by spread sign with
home favored on a spread of exactly zero. -/
def determineFavorite (meta : CollateMeta) : Option (String × String) :=
  if ¬ strTruthy meta.home_team ∨ ¬ strTruthy meta.away_team ∨ meta.spread_line = none then
    none
  else
    match meta.home_team, meta.away_team, meta.spread_line with
    | some home, some away, some spread =>
      if spread > 0 then some (home, away)
      else if spread < 0 then some (away, home)
      else some (home, away)
    | _, _, _ => none

/-- C9: with both team codes present and a numeric spread, a strictly positive
spread favors home, strictly negative favors away, and zero defaults to the
home team as favorite (e.g. spread 0, home "A", away "B" gives favorite "A"). -/
theorem C9_determine_favorite (home away : String) (s : ℚ)
    (hh : home ≠ "") (ha : away ≠ "") :
    (s > 0 → determineFavorite ⟨some home, some away, some s⟩ = some (home, away)) ∧
    (s < 0 → determineFavorite ⟨some home, some away, some s⟩ = some (away, home)) ∧
    (s = 0 → determineFavorite ⟨some home, some away, some s⟩ = some (home, away)) ∧
    determineFavorite ⟨some "A", some "B", some 0⟩ = some ("A", "B") := by
  refine ⟨?_, ?_, ?_, by simp [determineFavorite, strTruthy]⟩
  · intro hs
    simp [determineFavorite, strTruthy, hh, ha, hs]
  · intro hs
    simp [determineFavorite, strTruthy, hh, ha, hs, not_lt_of_lt hs]
  · intro hs
    subst hs
    simp [determineFavorite, strTruthy, hh, ha]

/-- Witness for C9 at a concrete input. -/
theorem C9_determine_favorite_witness :
    determineFavorite ⟨some "H", some "V", some (3/2)⟩ = some ("H", "V") :=
  (C9_determine_favorite "H" "V" (3/2) (by decide) (by decide)).1 (by norm_num)

/-! ## Evaluation engine: `computeMetrics` (`08_evaluate_margin_model.ts`)

Rows are `{game_id, predicted_margin, actual_margin}` (the `guess` field is
unused by `computeMetrics`); the game-metadata join map carries the parsed
spread (`none` = `NaN`) and the weekday string.
-/

/-- One evaluated prediction row. -/
structure PredictionResult where
  game_id : String
  predicted_margin : ℚ
  actual_margin : ℚ
deriving DecidableEq

/-- Per-bucket tallies. -/
structure BucketStats where
  correct : ℕ
  total : ℕ
deriving DecidableEq

/-- The slice of game metadata used by `computeMetrics`. -/
structure EvalMeta where
  spread_line : NumJS
  weekday : Option String

/-- The `metaByGame` lookup map of `computeMetrics`. -/
abbrev EvalMetaMap := String → Option EvalMeta

/-- The fixed bucket list `BUCKET_NAMES`. -/
def BUCKET_NAMES : List String :=
  ["favorite_predicted_cover", "underdog_predicted_cover",
   "favorite_is_home", "favorite_is_away",
   "thursday", "monday",
   "favorite_blowout", "upset", "within_3_of_vegas",
   "spread_0_5", "spread_1_5", "spread_2_5", "spread_3_5", "spread_4_5",
   "spread_5_5", "spread_6_5", "spread_7_5", "spread_8_5", "spread_9_5",
   "spread_10_5_plus"]

/-- The bucket table, in `initBuckets` insertion order. -/
abbrev Buckets := List (String × BucketStats)

namespace Buckets

/-- Lookup of a named bucket (`buckets[name]`). -/
def find (b : Buckets) (name : String) : Option BucketStats :=
  match b with
  | [] => none
  | (n, s) :: t => if n = name then some s else find t name

/-- The `total` tally of a named bucket, `0` if the bucket does not exist. -/
def total (b : Buckets) (name : String) : ℕ :=
  ((b.find name).map BucketStats.total).getD 0

end Buckets

/-- `initBuckets`: a zeroed tally per name. -/
def initBuckets (names : List String) : Buckets :=
  names.map (fun n => (n, ⟨0, 0⟩))

/-- `bumpBucket`: increment the named bucket in place; a name that is not in
the table is silently ignored (`if (!bucket) return`). -/
def bumpBucket (buckets : Buckets) (name : String) (isCorrect : Bool) : Buckets :=
  match buckets with
  | [] => []
  | (n, s) :: t =>
    if n = name then
      (n, ⟨if isCorrect then s.correct + 1 else s.correct, s.total + 1⟩) :: t
    else
      (n, s) :: bumpBucket t name isCorrect

/-- `spreadBucketName`: `Math.floor(|spread|) + 0.5`, rendered with `toFixed(1)`
and `.` replaced by `_` — i.e. `spread_<n>_5` — with a `spread_10_5_plus`
catch-all for `|spread| ≥ 10.5`. -/
def spreadBucketName (spread : ℚ) : String :=
  if |spread| ≥ 10.5 then "spread_10_5_plus"
  else "spread_" ++ Nat.repr (Int.toNat ⌊|spread|⌋) ++ "_5"

/-- The accumulator of the `rows.forEach` loop of `computeMetrics`: the
running `correct` count and the bucket tallies. -/
structure EvalAcc where
  correct : ℕ
  buckets : Buckets

/-- One iteration of the `rows.forEach` loop of `computeMetrics`: skip the row
entirely when its game id has no metadata or the spread is `NaN`; otherwise
score it and bump every applicable bucket. -/
def evalRow (metaByGame : EvalMetaMap) (acc : EvalAcc) (row : PredictionResult) : EvalAcc :=
  match metaByGame row.game_id with
  | none => acc
  | some meta =>
    match meta.spread_line with
    | none => acc
    | some spread =>
      let predictedDiff := row.predicted_margin - spread
      let isCorrect := coverCorrect row.predicted_margin row.actual_margin spread
      let correct := if isCorrect then acc.correct + 1 else acc.correct
      let favoriteIsHome := decide (spread > 0)
      let favoriteMargin := if favoriteIsHome then row.actual_margin else -row.actual_margin
      let predictedFavCover := decide (predictedDiff ≥ 0)
      let b := bumpBucket acc.buckets
        (if predictedFavCover then "favorite_predicted_cover" else "underdog_predicted_cover")
        isCorrect
      let b := bumpBucket b (if favoriteIsHome then "favorite_is_home" else "favorite_is_away")
        isCorrect
      let weekday := (meta.weekday.map String.toLower).getD ""
      let b := if weekday = "thursday" then bumpBucket b "thursday" isCorrect else b
      let b := if weekday = "monday" then bumpBucket b "monday" isCorrect else b
      let b := if favoriteMargin > 7 then bumpBucket b "favorite_blowout" isCorrect else b
      let b := if favoriteMargin < -3 then bumpBucket b "upset" isCorrect else b
      let b := if |row.actual_margin - spread| ≤ 3 then bumpBucket b "within_3_of_vegas" isCorrect
               else b
      let b := bumpBucket b (spreadBucketName spread) isCorrect
      { correct := correct, buckets := b }

/-- The metrics record; `mse`/`baseline_mse` stand for the squared `rmse`/
`baseline_rmse` of the source (which applies `Math.sqrt` to exactly these
quantities), and `r2 = none` models the `NaN` produced when `ssTot` is `0`. -/
structure Metrics where
  samples : ℕ
  correct : ℕ
  accuracy : ℚ
  mae : ℚ
  mse : ℚ
  bias : ℚ
  r2 : Option ℚ
  mean_actual : ℚ
  baseline_mae : ℚ
  baseline_mse : ℚ
  buckets : Buckets

/-- `computeMetrics` of `src/steps/08_evaluate_margin_model.ts`; `none` models
the `'No rows to evaluate.'` exception on an empty row list.  All global
aggregates (`reduce` calls in the source) are left folds over the full row
list. -/
def computeMetrics (rows : List PredictionResult) (metaByGame : EvalMetaMap) : Option Metrics :=
  if rows.length = 0 then none
  else
    let n : ℚ := rows.length
    let meanActual := rows.foldl (fun a r => a + r.actual_margin) 0 / n
    let sumAbsErr := rows.foldl (fun a r => a + |r.predicted_margin - r.actual_margin|) 0
    let sumSqErr := rows.foldl
      (fun a r => a + (r.predicted_margin - r.actual_margin) * (r.predicted_margin - r.actual_margin)) 0
    let sumErr := rows.foldl (fun a r => a + (r.predicted_margin - r.actual_margin)) 0
    let baselineMae := rows.foldl (fun a r => a + |meanActual - r.actual_margin|) 0 / n
    let baselineMse := rows.foldl
      (fun a r => a + (meanActual - r.actual_margin) * (meanActual - r.actual_margin)) 0 / n
    let ssRes := rows.foldl
      (fun a r => a + (r.actual_margin - r.predicted_margin) ^ 2) 0
    let ssTot := rows.foldl (fun a r => a + (r.actual_margin - meanActual) ^ 2) 0
    let r2 := if ssTot = 0 then none else some (1 - ssRes / ssTot)
    let acc := rows.foldl (evalRow metaByGame) ⟨0, initBuckets BUCKET_NAMES⟩
    some
      { samples := rows.length
        correct := acc.correct
        accuracy := (acc.correct : ℚ) / (rows.length : ℚ)
        mae := sumAbsErr / n
        mse := sumSqErr / n
        bias := sumErr / n
        r2 := r2
        mean_actual := meanActual
        baseline_mae := baselineMae
        baseline_mse := baselineMse
        buckets := acc.buckets }

/-- A row is joinable when its game id resolves to metadata with a numeric
spread line; only joinable rows are scored for accuracy and buckets. -/
def joinable (metaByGame : EvalMetaMap) (row : PredictionResult) : Bool :=
  match metaByGame row.game_id with
  | none => false
  | some meta => meta.spread_line.isSome

theorem evalRow_not_joinable (metaByGame : EvalMetaMap) (acc : EvalAcc)
    (row : PredictionResult) (h : joinable metaByGame row = false) :
    evalRow metaByGame acc row = acc := by
  unfold joinable at h
  unfold evalRow
  cases hm : metaByGame row.game_id with
  | none => rfl
  | some meta =>
    rw [hm] at h
    cases hs : meta.spread_line with
    | none => simp [hs]
    | some s => simp [hs, Option.isSome] at h

theorem bumpBucket_keys (b : Buckets) (name : String) (c : Bool) :
    (bumpBucket b name c).map Prod.fst = b.map Prod.fst := by
  induction b with
  | nil => rfl
  | cons hd t ih =>
    obtain ⟨n, s⟩ := hd
    by_cases h : n = name <;> simp [bumpBucket, h, ih]

theorem bumpBucket_not_mem (b : Buckets) {name : String} (c : Bool)
    (h : name ∉ b.map Prod.fst) : bumpBucket b name c = b := by
  induction b with
  | nil => rfl
  | cons hd t ih =>
    obtain ⟨n, s⟩ := hd
    simp only [List.map_cons, List.mem_cons, not_or] at h
    have hne : ¬ n = name := fun he => h.1 he.symm
    simp [bumpBucket, hne, ih h.2]

theorem Buckets.find_bump_ne (b : Buckets) {name n' : String} (c : Bool) (h : n' ≠ name) :
    (bumpBucket b name c).find n' = b.find n' := by
  induction b with
  | nil => rfl
  | cons hd t ih =>
    obtain ⟨n, s⟩ := hd
    by_cases hn : n = name
    · subst hn
      have hne : ¬ n = n' := fun he => h he.symm
      simp [bumpBucket, Buckets.find, hne]
    · by_cases hn' : n = n'
      · subst hn'
        simp [bumpBucket, Buckets.find, hn, h]
      · simp [bumpBucket, Buckets.find, hn, hn', ih]

theorem Buckets.total_bump_ne (b : Buckets) {name n' : String} (c : Bool) (h : n' ≠ name) :
    (bumpBucket b name c).total n' = b.total n' := by
  simp [Buckets.total, Buckets.find_bump_ne b c h]

theorem Buckets.total_bump_self (b : Buckets) {name : String} (c : Bool)
    (h : name ∈ b.map Prod.fst) :
    (bumpBucket b name c).total name = b.total name + 1 := by
  induction b with
  | nil => simp at h
  | cons hd t ih =>
    obtain ⟨n, s⟩ := hd
    by_cases hn : n = name
    · subst hn
      simp [bumpBucket, Buckets.total, Buckets.find]
    · simp only [List.map_cons, List.mem_cons] at h
      have hmem : name ∈ t.map Prod.fst := h.resolve_left (fun he => hn he.symm)
      have ihh := ih hmem
      simp only [Buckets.total] at ihh ⊢
      simp [bumpBucket, Buckets.find, hn, ihh]

theorem Buckets.total_iteBump_ne {c : Prop} [Decidable c] (b : Buckets)
    {name n' : String} (cb : Bool) (h : n' ≠ name) :
    Buckets.total (if c then bumpBucket b name cb else b) n' = b.total n' := by
  split
  · exact Buckets.total_bump_ne b cb h
  · rfl

theorem Buckets.total_iteBump_self {c : Prop} [Decidable c] (b : Buckets)
    {name : String} (cb : Bool) (h : name ∈ b.map Prod.fst) :
    Buckets.total (if c then bumpBucket b name cb else b) name
      = b.total name + (if c then 1 else 0) := by
  split
  · simp [Buckets.total_bump_self b cb h]
  · rfl

theorem iteBump_keys {c : Prop} [Decidable c] (b : Buckets) (name : String) (cb : Bool) :
    (if c then bumpBucket b name cb else b).map Prod.fst = b.map Prod.fst := by
  split
  · exact bumpBucket_keys b name cb
  · rfl

theorem spreadBucketName_zero : spreadBucketName 0 = "spread_0_5" := by
  have h : ¬ (|(0 : ℚ)| ≥ 10.5) := by norm_num
  rw [spreadBucketName, if_neg h, abs_zero, Int.floor_zero, Int.toNat_zero]
  rfl

/-- C10: in `computeMetrics`, a resolved spread of exactly `0` makes
`favoriteIsHome` false — the row lands in `favorite_is_away` (never
`favorite_is_home`) and its favorite margin is the negated actual margin
(visible through the `favorite_blowout`/`upset` bumps) — the opposite of the
collation step, where `determineFavorite` makes the home team the favorite on
a zero spread; and a spread with `10 ≤ |spread| < 10.5` is labelled
`spread_10_5`, which is not in `BUCKET_NAMES`, so its magnitude bump is a
no-op. -/
theorem C10_zero_spread_convention_and_bucket_gap :
    (∀ (M : EvalMetaMap) (acc : EvalAcc) (row : PredictionResult) (meta : EvalMeta),
      M row.game_id = some meta → meta.spread_line = some 0 →
      acc.buckets.map Prod.fst = BUCKET_NAMES →
      (evalRow M acc row).buckets.total "favorite_is_away"
          = acc.buckets.total "favorite_is_away" + 1 ∧
      (evalRow M acc row).buckets.total "favorite_is_home"
          = acc.buckets.total "favorite_is_home" ∧
      (evalRow M acc row).buckets.total "favorite_blowout"
          = acc.buckets.total "favorite_blowout"
            + (if -row.actual_margin > 7 then 1 else 0) ∧
      (evalRow M acc row).buckets.total "upset"
          = acc.buckets.total "upset" + (if -row.actual_margin < -3 then 1 else 0)) ∧
    (∀ home away : String, home ≠ "" → away ≠ "" →
      determineFavorite ⟨some home, some away, some 0⟩ = some (home, away)) ∧
    (∀ s : ℚ, 10 ≤ |s| → |s| < 10.5 →
      spreadBucketName s = "spread_10_5" ∧
      "spread_10_5" ∉ BUCKET_NAMES ∧
      ∀ (b : Buckets) (c : Bool), "spread_10_5" ∉ b.map Prod.fst →
        bumpBucket b (spreadBucketName s) c = b) := by
  refine ⟨?_, ?_, ?_⟩
  · intro M acc row meta hm hs hkeys
    have h00 : ¬ ((0 : ℚ) > 0) := lt_irrefl 0
    simp only [evalRow, hm, hs, decide_eq_false h00, Bool.false_eq_true, if_false,
      spreadBucketName_zero]
    have hne1 : ∀ n' : String, n' ≠ "favorite_predicted_cover" →
        n' ≠ "underdog_predicted_cover" →
        n' ≠ (if decide (row.predicted_margin - 0 ≥ 0) = true
              then "favorite_predicted_cover" else "underdog_predicted_cover") := by
      intro n' ha hb
      split <;> assumption
    refine ⟨?_, ?_, ?_, ?_⟩
    · rw [Buckets.total_bump_ne _ _ (by decide : ("favorite_is_away" : String) ≠ "spread_0_5"),
        Buckets.total_iteBump_ne _ _ (by decide : ("favorite_is_away" : String) ≠ "within_3_of_vegas"),
        Buckets.total_iteBump_ne _ _ (by decide : ("favorite_is_away" : String) ≠ "upset"),
        Buckets.total_iteBump_ne _ _ (by decide : ("favorite_is_away" : String) ≠ "favorite_blowout"),
        Buckets.total_iteBump_ne _ _ (by decide : ("favorite_is_away" : String) ≠ "monday"),
        Buckets.total_iteBump_ne _ _ (by decide : ("favorite_is_away" : String) ≠ "thursday"),
        Buckets.total_bump_self _ _
          (by rw [bumpBucket_keys, hkeys]; decide),
        Buckets.total_bump_ne _ _ (hne1 _ (by decide) (by decide))]
    · rw [Buckets.total_bump_ne _ _ (by decide : ("favorite_is_home" : String) ≠ "spread_0_5"),
        Buckets.total_iteBump_ne _ _ (by decide : ("favorite_is_home" : String) ≠ "within_3_of_vegas"),
        Buckets.total_iteBump_ne _ _ (by decide : ("favorite_is_home" : String) ≠ "upset"),
        Buckets.total_iteBump_ne _ _ (by decide : ("favorite_is_home" : String) ≠ "favorite_blowout"),
        Buckets.total_iteBump_ne _ _ (by decide : ("favorite_is_home" : String) ≠ "monday"),
        Buckets.total_iteBump_ne _ _ (by decide : ("favorite_is_home" : String) ≠ "thursday"),
        Buckets.total_bump_ne _ _ (by decide : ("favorite_is_home" : String) ≠ "favorite_is_away"),
        Buckets.total_bump_ne _ _ (hne1 _ (by decide) (by decide))]
    · rw [Buckets.total_bump_ne _ _ (by decide : ("favorite_blowout" : String) ≠ "spread_0_5"),
        Buckets.total_iteBump_ne _ _ (by decide : ("favorite_blowout" : String) ≠ "within_3_of_vegas"),
        Buckets.total_iteBump_ne _ _ (by decide : ("favorite_blowout" : String) ≠ "upset"),
        Buckets.total_iteBump_self _ _
          (by rw [iteBump_keys, iteBump_keys, bumpBucket_keys, bumpBucket_keys, hkeys]; decide),
        Buckets.total_iteBump_ne _ _ (by decide : ("favorite_blowout" : String) ≠ "monday"),
        Buckets.total_iteBump_ne _ _ (by decide : ("favorite_blowout" : String) ≠ "thursday"),
        Buckets.total_bump_ne _ _ (by decide : ("favorite_blowout" : String) ≠ "favorite_is_away"),
        Buckets.total_bump_ne _ _ (hne1 _ (by decide) (by decide))]
    · rw [Buckets.total_bump_ne _ _ (by decide : ("upset" : String) ≠ "spread_0_5"),
        Buckets.total_iteBump_ne _ _ (by decide : ("upset" : String) ≠ "within_3_of_vegas"),
        Buckets.total_iteBump_self _ _
          (by rw [iteBump_keys, iteBump_keys, iteBump_keys, bumpBucket_keys, bumpBucket_keys,
            hkeys]; decide),
        Buckets.total_iteBump_ne _ _ (by decide : ("upset" : String) ≠ "favorite_blowout"),
        Buckets.total_iteBump_ne _ _ (by decide : ("upset" : String) ≠ "monday"),
        Buckets.total_iteBump_ne _ _ (by decide : ("upset" : String) ≠ "thursday"),
        Buckets.total_bump_ne _ _ (by decide : ("upset" : String) ≠ "favorite_is_away"),
        Buckets.total_bump_ne _ _ (hne1 _ (by decide) (by decide))]
  · intro home away hh ha
    simp [determineFavorite, strTruthy, hh, ha]
  · intro s h1 h2
    have hfloor : ⌊|s|⌋ = 10 := by
      rw [Int.floor_eq_iff]
      constructor
      · exact_mod_cast h1
      · push_cast
        linarith
    have hnot : ¬ (|s| ≥ 10.5) := by
      push_neg
      exact h2
    have hname : spreadBucketName s = "spread_10_5" := by
      rw [spreadBucketName, if_neg hnot, hfloor]
      rfl
    refine ⟨hname, by decide, ?_⟩
    intro b c hmem
    rw [hname]
    exact bumpBucket_not_mem b c hmem

/-! ### C3: what an unjoinable row does and does not count towards -/

/-- Metadata for the C3 examples: only game `g1` resolves, with spread `0`. -/
def c3Meta : EvalMetaMap := fun gid => if gid = "g1" then some ⟨some 0, none⟩ else none

/-- A row whose game id resolves to a spread (and is scored correct). -/
def c3JoinableRow : PredictionResult := ⟨"g1", 0, 0⟩

/-- A row whose game id has no metadata at all. -/
def c3UnjoinableRow : PredictionResult := ⟨"g2", 1, 1⟩

/-- C3 counterexample: with one joinable (and correct) row and one unjoinable
row, the code reports accuracy `1/2` — correct covers divided by the TOTAL
row count — while the claim's accuracy (correct covers divided by the number
of rows with a resolvable spread) would be `1/1`. -/
theorem C3_counterexample :
    (computeMetrics [c3JoinableRow, c3UnjoinableRow] c3Meta).map Metrics.correct = some 1 ∧
    ([c3JoinableRow, c3UnjoinableRow].filter (joinable c3Meta)).length = 1 ∧
    (computeMetrics [c3JoinableRow, c3UnjoinableRow] c3Meta).map Metrics.accuracy
      = some (1 / 2) ∧
    (1 / 2 : ℚ) ≠ 1 / 1 := by
  refine ⟨?_, by simp [c3JoinableRow, c3UnjoinableRow, c3Meta, joinable], ?_, by norm_num⟩
  · simp [computeMetrics, c3JoinableRow, c3UnjoinableRow, c3Meta, evalRow, coverCorrect]
  · simp [computeMetrics, c3JoinableRow, c3UnjoinableRow, c3Meta, evalRow, coverCorrect]

/-- C3 as amended: appending a row whose game id has no resolvable spread
leaves the correct-cover count and every bucket unchanged, but increments the
sample count and the accuracy denominator (accuracy is correct divided by the
TOTAL number of rows), and the row's error still enters the global MAE, bias,
mean actual margin and (squared) RMSE sums. -/
theorem C3_amended_unjoinable_rows (rows : List PredictionResult)
    (r : PredictionResult) (M : EvalMetaMap)
    (hj : joinable M r = false) (hne : rows ≠ []) :
    (computeMetrics (rows ++ [r]) M).map Metrics.correct
      = (computeMetrics rows M).map Metrics.correct ∧
    (computeMetrics (rows ++ [r]) M).map Metrics.buckets
      = (computeMetrics rows M).map Metrics.buckets ∧
    (computeMetrics (rows ++ [r]) M).map Metrics.samples
      = (computeMetrics rows M).map (fun m => m.samples + 1) ∧
    (computeMetrics (rows ++ [r]) M).map Metrics.accuracy
      = (computeMetrics rows M).map (fun m => (m.correct : ℚ) / (rows.length + 1 : ℚ)) ∧
    (computeMetrics (rows ++ [r]) M).map (fun m => (rows.length + 1 : ℚ) * m.mae)
      = (computeMetrics rows M).map
          (fun m => (rows.length : ℚ) * m.mae + |r.predicted_margin - r.actual_margin|) ∧
    (computeMetrics (rows ++ [r]) M).map (fun m => (rows.length + 1 : ℚ) * m.bias)
      = (computeMetrics rows M).map
          (fun m => (rows.length : ℚ) * m.bias + (r.predicted_margin - r.actual_margin)) ∧
    (computeMetrics (rows ++ [r]) M).map (fun m => (rows.length + 1 : ℚ) * m.mean_actual)
      = (computeMetrics rows M).map
          (fun m => (rows.length : ℚ) * m.mean_actual + r.actual_margin) ∧
    (computeMetrics (rows ++ [r]) M).map (fun m => (rows.length + 1 : ℚ) * m.mse)
      = (computeMetrics rows M).map
          (fun m => (rows.length : ℚ) * m.mse
            + (r.predicted_margin - r.actual_margin) * (r.predicted_margin - r.actual_margin)) := by
  have hlen : rows.length ≠ 0 := fun h => hne (List.length_eq_zero.mp h)
  have hlenq : (rows.length : ℚ) ≠ 0 := Nat.cast_ne_zero.mpr hlen
  have hlen' : (rows ++ [r]).length ≠ 0 := by simp
  have hfold : ∀ (g : PredictionResult → ℚ),
      (rows ++ [r]).foldl (fun a x => a + g x) 0 = rows.foldl (fun a x => a + g x) 0 + g r := by
    intro g
    rw [List.foldl_append]
    rfl
  have hacc : (rows ++ [r]).foldl (evalRow M) ⟨0, initBuckets BUCKET_NAMES⟩
      = rows.foldl (evalRow M) ⟨0, initBuckets BUCKET_NAMES⟩ := by
    rw [List.foldl_append]
    exact evalRow_not_joinable M _ r hj
  simp only [computeMetrics, if_neg hlen, if_neg hlen', hacc, hfold, List.length_append,
    List.length_singleton, Option.map_some']
  refine ⟨rfl, rfl, rfl, ?_, ?_, ?_, ?_, ?_⟩
  · push_cast
    rfl
  all_goals
    refine congrArg some ?_
    push_cast
    field_simp

/-- Witness for C3's amended theorem at a concrete input, plus a concrete
demonstration that the unjoinable row also flows into R²: changing only the
unjoinable row's prediction changes `r2` (from `1` to `-31`). -/
theorem C3_amended_unjoinable_rows_witness :
    (computeMetrics ([c3JoinableRow] ++ [c3UnjoinableRow]) c3Meta).map Metrics.correct
      = (computeMetrics [c3JoinableRow] c3Meta).map Metrics.correct ∧
    (computeMetrics ([c3JoinableRow] ++ [c3UnjoinableRow]) c3Meta).map Metrics.samples
      = (computeMetrics [c3JoinableRow] c3Meta).map (fun m => m.samples + 1) ∧
    (computeMetrics [c3JoinableRow, c3UnjoinableRow] c3Meta).map Metrics.r2
      = some (some 1) ∧
    (computeMetrics [c3JoinableRow, ⟨"g2", 5, 1⟩] c3Meta).map Metrics.r2
      = some (some (-31)) := by
  have h := C3_amended_unjoinable_rows [c3JoinableRow] c3UnjoinableRow c3Meta
    (by simp [joinable, c3Meta, c3UnjoinableRow]) (by simp)
  refine ⟨h.1, h.2.2.1, ?_, ?_⟩
  · simp [computeMetrics, c3JoinableRow, c3UnjoinableRow, c3Meta, evalRow, coverCorrect]
    norm_num
  · simp [computeMetrics, c3JoinableRow, c3Meta, evalRow, coverCorrect]
    norm_num

/-! ## Plays, stat contexts and calculators (`calculators/*.ts`)

A play record carries the fields the modelled calculators read.  Numeric
fields that can be `undefined`/`null`/`NaN` are `NumJS`; flag fields tested
only for truthiness are `Bool`; team-code fields are `Option String`
(compared against `ctx.team` with JS `===`, so an absent team never
matches).  Drive identifiers are `string | number` in the source, modelled
as `DriveId`. -/

/-- A drive identifier (`string | number`). -/
inductive DriveId where
  | str (s : String)
  | num (q : ℚ)
deriving DecidableEq

/-- One play-by-play record (the fields used by the modelled calculators). -/
structure Play where
  game_id : Option String := none
  posteam : Option String := none
  defteam : Option String := none
  play_type : Option String := none
  down : NumJS := none
  first_down : Bool := false
  yardline_100 : NumJS := none
  fixed_drive : Option DriveId := none
  drive : Option DriveId := none
  touchdown : Bool := false
  drive_play_count : NumJS := none
  drive_first_downs : NumJS := none
  fixed_drive_result : Option String := none
  interception : Bool := false
  fumble : Bool := false
  fumble_recovery_1_team : Option String := none
  fumble_recovery_2_team : Option String := none
  penalty : Bool := false
  penalty_team : Option String := none
  penalty_yards : NumJS := none
  epa : NumJS := none
  success : Bool := false
  half_seconds_remaining : NumJS := none
  posteam_score : NumJS := none
  defteam_score : NumJS := none

/-- `GameMeta` of `calculators/types.ts`. -/
structure GameMeta where
  home_team : Option String := none
  away_team : Option String := none
  home_score : NumJS := none
  away_score : NumJS := none

/-- JS `run/rush/pass/sack` offensive-play test shared by the calculators. -/
def isOffPlayType (playType : Option String) : Bool :=
  playType = some "run" ∨ playType = some "rush" ∨
    playType = some "pass" ∨ playType = some "sack"

/-- The `StatContext` of `calculators/types.ts`, with `buildStatContext`'s
`addStat`/`incrementStat` semantics baked in (`src/unnamed/part_002`):
`allowedStats = none` models no configured schema. -/
structure Ctx where
  season : String := ""
  week : String := ""
  game_id : String := ""
  team : String := ""
  stats : StatBlock := []
  meta : Option GameMeta := none
  allowedStats : Option (List String) := none

/-- `key.startsWith('_')`, decided on the first character of the key. -/
def isPrivateKey (key : String) : Bool :=
  match key.data with
  | c :: _ => c = '_'
  | [] => false

/-- The allow-list guard of `addStat`/`incrementStat`:
`if (allowedStats && !allowedStats.has(key) && !key.startsWith('_')) return`. -/
def allowedWrite (allowed : Option (List String)) (key : String) : Bool :=
  match allowed with
  | none => true
  | some l => key ∈ l ∨ isPrivateKey key

/-- `ctx.addStat(key, value)`. -/
def Ctx.addStat (ctx : Ctx) (key : String) (value : ℚ) : Ctx :=
  if allowedWrite ctx.allowedStats key then
    { ctx with stats := ctx.stats.set key value }
  else ctx

/-- `ctx.incrementStat(key, by = 1)`. -/
def Ctx.incrementStat (ctx : Ctx) (key : String) (amount : ℚ := 1) : Ctx :=
  if allowedWrite ctx.allowedStats key then
    { ctx with stats := ctx.stats.set key (ctx.stats.getD key + amount) }
  else ctx

theorem addStat_stats_of_none (ctx : Ctx) (key : String) (value : ℚ)
    (h : ctx.allowedStats = none) :
    (ctx.addStat key value).stats = ctx.stats.set key value := by
  simp [Ctx.addStat, allowedWrite, h]

theorem incrementStat_stats_of_none (ctx : Ctx) (key : String) (amount : ℚ)
    (h : ctx.allowedStats = none) :
    (ctx.incrementStat key amount).stats = ctx.stats.set key (ctx.stats.getD key + amount) := by
  simp [Ctx.incrementStat, allowedWrite, h]

/-- A duck-typed calculator (`StatCalculator` of `calculators/types.ts`):
an absent lifecycle method is the identity. -/
structure StatCalculator where
  name : String
  init : Ctx → Ctx := id
  accumulate : Play → Ctx → Ctx := fun _ c => c
  finalize : Ctx → Ctx := id

/-- A scaffold finalize body: zero-fill each listed key that is absent. -/
def scaffoldFinalize (statNames : List String) (ctx : Ctx) : Ctx :=
  statNames.foldl (fun c k => if c.stats.hasKey k then c else c.addStat k 0) ctx

/-! ### `situationalLeverageCalculator` (`calculators/situational_leverage.ts`) -/

def situationalLeverageInit (ctx : Ctx) : Ctx :=
  let ctx := ctx.addStat "late_down_epa_off" 0
  let ctx := ctx.addStat "late_down_epa_def" 0
  let ctx := ctx.addStat "two_min_epa_off" 0
  let ctx := ctx.addStat "two_min_epa_def" 0
  let ctx := ctx.addStat "close_game_epa_off" 0
  let ctx := ctx.addStat "close_game_epa_def" 0
  let ctx := ctx.addStat "_late_down_off_plays" 0
  let ctx := ctx.addStat "_late_down_def_plays" 0
  let ctx := ctx.addStat "_two_min_off_plays" 0
  let ctx := ctx.addStat "_two_min_def_plays" 0
  let ctx := ctx.addStat "_close_game_off_plays" 0
  ctx.addStat "_close_game_def_plays" 0

def situationalLeverageAccumulate (play : Play) (ctx : Ctx) : Ctx :=
  let down := play.down
  let halfRemain := play.half_seconds_remaining
  let scoreDiff : NumJS :=
    match play.posteam_score, play.defteam_score with
    | some ps, some ds => some |ps - ds|
    | _, _ => none
  match play.epa with
  | none => ctx
  | some epa =>
    let ctx :=
      if down = some 3 ∨ down = some 4 then
        let ctx :=
          if play.posteam = some ctx.team then
            (ctx.incrementStat "late_down_epa_off" epa).incrementStat "_late_down_off_plays"
          else ctx
        if play.defteam = some ctx.team then
          (ctx.incrementStat "late_down_epa_def" epa).incrementStat "_late_down_def_plays"
        else ctx
      else ctx
    let ctx :=
      match halfRemain with
      | some hr =>
        if hr ≤ 120 then
          let ctx :=
            if play.posteam = some ctx.team then
              (ctx.incrementStat "two_min_epa_off" epa).incrementStat "_two_min_off_plays"
            else ctx
          if play.defteam = some ctx.team then
            (ctx.incrementStat "two_min_epa_def" epa).incrementStat "_two_min_def_plays"
          else ctx
        else ctx
      | none => ctx
    match scoreDiff with
    | some sd =>
      if sd ≤ 8 then
        let ctx :=
          if play.posteam = some ctx.team then
            (ctx.incrementStat "close_game_epa_off" epa).incrementStat "_close_game_off_plays"
          else ctx
        if play.defteam = some ctx.team then
          (ctx.incrementStat "close_game_epa_def" epa).incrementStat "_close_game_def_plays"
        else ctx
      else ctx
    | none => ctx

def situationalLeverageFinalize (ctx : Ctx) : Ctx :=
  let ctx := ctx.addStat "late_down_epa_off"
    (safeDiv (ctx.stats.getD "late_down_epa_off") (ctx.stats.getD "_late_down_off_plays"))
  let ctx := ctx.addStat "late_down_epa_def"
    (safeDiv (ctx.stats.getD "late_down_epa_def") (ctx.stats.getD "_late_down_def_plays"))
  let ctx := ctx.addStat "two_min_epa_off"
    (safeDiv (ctx.stats.getD "two_min_epa_off") (ctx.stats.getD "_two_min_off_plays"))
  let ctx := ctx.addStat "two_min_epa_def"
    (safeDiv (ctx.stats.getD "two_min_epa_def") (ctx.stats.getD "_two_min_def_plays"))
  let ctx := ctx.addStat "close_game_epa_off"
    (safeDiv (ctx.stats.getD "close_game_epa_off") (ctx.stats.getD "_close_game_off_plays"))
  ctx.addStat "close_game_epa_def"
    (safeDiv (ctx.stats.getD "close_game_epa_def") (ctx.stats.getD "_close_game_def_plays"))

/-- `situationalLeverageCalculator` assembled. -/
def situationalLeverageCalculator : StatCalculator :=
  { name := "situational_leverage"
    init := situationalLeverageInit
    accumulate := situationalLeverageAccumulate
    finalize := situationalLeverageFinalize }

/-! ### `advancedEpaSuccessCalculator` (`src/unnamed/part_006`) -/

def advancedEpaSuccessInit (ctx : Ctx) : Ctx :=
  let ctx := ctx.addStat "off_total_epa" 0
  let ctx := ctx.addStat "off_success_plays" 0
  let ctx := ctx.addStat "off_plays" 0
  let ctx := ctx.addStat "off_rush_plays" 0
  let ctx := ctx.addStat "off_pass_plays" 0
  let ctx := ctx.addStat "def_total_epa_allowed" 0
  let ctx := ctx.addStat "def_success_plays" 0
  let ctx := ctx.addStat "def_plays" 0
  let ctx := ctx.addStat "def_rush_plays" 0
  ctx.addStat "def_pass_plays" 0

def advancedEpaSuccessAccumulate (play : Play) (ctx : Ctx) : Ctx :=
  let isOffPlay := isOffPlayType play.play_type
  let epa := play.epa.getD 0
  let isSuccess := play.success
  let ctx :=
    if play.posteam = some ctx.team ∧ isOffPlay then
      let ctx := ctx.incrementStat "off_total_epa" epa
      let ctx := ctx.incrementStat "off_plays"
      let ctx :=
        if play.play_type = some "run" ∨ play.play_type = some "rush" then
          (ctx.incrementStat "off_rush_plays").incrementStat "off_epa_per_rush" epa
        else ctx
      let ctx :=
        if play.play_type = some "pass" ∨ play.play_type = some "sack" then
          (ctx.incrementStat "off_pass_plays").incrementStat "off_epa_per_pass" epa
        else ctx
      if isSuccess then ctx.incrementStat "off_success_plays" else ctx
    else ctx
  if play.defteam = some ctx.team ∧ isOffPlay then
    let ctx := ctx.incrementStat "def_total_epa_allowed" epa
    let ctx := ctx.incrementStat "def_plays"
    let ctx :=
      if play.play_type = some "run" ∨ play.play_type = some "rush" then
        (ctx.incrementStat "def_rush_plays").incrementStat "def_epa_per_rush" epa
      else ctx
    let ctx :=
      if play.play_type = some "pass" ∨ play.play_type = some "sack" then
        (ctx.incrementStat "def_pass_plays").incrementStat "def_epa_per_pass" epa
      else ctx
    if isSuccess then ctx.incrementStat "def_success_plays" else ctx
  else ctx

def advancedEpaSuccessFinalize (ctx : Ctx) : Ctx :=
  let offPlays := ctx.stats.getD "off_plays"
  let offRush := ctx.stats.getD "off_rush_plays"
  let offPass := ctx.stats.getD "off_pass_plays"
  let offEpa := ctx.stats.getD "off_total_epa"
  let offRushEpa := ctx.stats.getD "off_epa_per_rush"
  let offPassEpa := ctx.stats.getD "off_epa_per_pass"
  let ctx := ctx.addStat "off_epa_per_play" (safeDiv offEpa offPlays)
  let ctx := ctx.addStat "off_epa_per_rush" (safeDiv offRushEpa offRush)
  let ctx := ctx.addStat "off_epa_per_pass" (safeDiv offPassEpa offPass)
  let ctx := ctx.addStat "off_success_rate" (safeDiv (ctx.stats.getD "off_success_plays") offPlays)
  let defPlays := ctx.stats.getD "def_plays"
  let defRush := ctx.stats.getD "def_rush_plays"
  let defPass := ctx.stats.getD "def_pass_plays"
  let defEpa := ctx.stats.getD "def_total_epa_allowed"
  let defRushEpa := ctx.stats.getD "def_epa_per_rush"
  let defPassEpa := ctx.stats.getD "def_epa_per_pass"
  let ctx := ctx.addStat "def_epa_per_play" (safeDiv defEpa defPlays)
  let ctx := ctx.addStat "def_epa_per_rush" (safeDiv defRushEpa defRush)
  let ctx := ctx.addStat "def_epa_per_pass" (safeDiv defPassEpa defPass)
  ctx.addStat "def_success_rate" (safeDiv (ctx.stats.getD "def_success_plays") defPlays)

/-- `advancedEpaSuccessCalculator` assembled. -/
def advancedEpaSuccessCalculator : StatCalculator :=
  { name := "advanced_epa_success"
    init := advancedEpaSuccessInit
    accumulate := advancedEpaSuccessAccumulate
    finalize := advancedEpaSuccessFinalize }

/-! ### `offensiveEfficiencyCalculator` (`src/unnamed/part_003`) and
`defenseEfficiencyCalculator` (`src/unnamed/part_002`)

These two stash a non-numeric state object (`_off_eff_state` /
`_def_eff_state`: a `Set` of red-zone drive ids and a `Map` of per-drive
rollups) on the stats record; the object is modelled as an explicit
`EffState` threaded beside the `Ctx`.  The lazy `||=` re-creation branch of
the source never fires here because `init` always runs first.  A JS `NaN`
in `drive_play_count`/`drive_first_downs` would be stored as `NaN` by the
source and then excluded by the `typeof`/comparison guards at finalize; the
`NumJS` model folds that case into `none`, with the same finalized values. -/

/-- One tracked drive rollup (`{plays?, first_downs?, result?}`). -/
structure DriveInfo where
  plays : NumJS := none
  first_downs : NumJS := none
  result : Option String := none

/-- The `_off_eff_state` / `_def_eff_state` object. -/
structure EffState where
  rzDrives : List DriveId := []
  drives : List (DriveId × DriveInfo) := []

/-- `state.drives.get(driveId)`. -/
def lookupDrive (l : List (DriveId × DriveInfo)) (k : DriveId) : Option DriveInfo :=
  match l with
  | [] => none
  | (k', v) :: t => if k' = k then some v else lookupDrive t k

/-- `state.drives.set(driveId, entry)`: JS `Map` keeps insertion order. -/
def setDrive (l : List (DriveId × DriveInfo)) (k : DriveId) (v : DriveInfo) :
    List (DriveId × DriveInfo) :=
  match l with
  | [] => [(k, v)]
  | (k', v') :: t => if k' = k then (k', v) :: t else (k', v') :: setDrive t k v

/-- The shared per-play drive-rollup bookkeeping
(`if (driveId !== undefined && driveId !== null) { ... drives.set(...) }`). -/
def trackDrive (play : Play) (driveId : Option DriveId) (state : EffState) : EffState :=
  match driveId with
  | none => state
  | some d =>
    let entry := (lookupDrive state.drives d).getD {}
    let entry :=
      match play.drive_play_count with
      | some v => { entry with plays := some v }
      | none => entry
    let entry :=
      match play.drive_first_downs with
      | some v => { entry with first_downs := some v }
      | none => entry
    let entry :=
      if strTruthy play.fixed_drive_result then { entry with result := play.fixed_drive_result }
      else entry
    { state with drives := setDrive state.drives d entry }

def offensiveEfficiencyInit (c : Ctx × EffState) : Ctx × EffState :=
  let ctx := c.1
  let ctx := ctx.addStat "off_first_downs_total" 0
  let ctx := ctx.addStat "off_3rd_down_att" 0
  let ctx := ctx.addStat "off_3rd_down_conv" 0
  let ctx := ctx.addStat "off_red_zone_trips" 0
  let ctx := ctx.addStat "off_red_zone_tds" 0
  (ctx, {})

/-- The first-down counter of `offensiveEfficiencyCalculator.accumulate`. -/
def oeFirstDownsBlock (play : Play) (ctx : Ctx) : Ctx :=
  if play.first_down then ctx.incrementStat "off_first_downs_total" else ctx

/-- The 3rd-down counters of `offensiveEfficiencyCalculator.accumulate`. -/
def oeThirdDownBlock (play : Play) (ctx : Ctx) : Ctx :=
  if play.down = some 3 ∧ isOffPlayType play.play_type then
    let ctx := ctx.incrementStat "off_3rd_down_att"
    if play.first_down then ctx.incrementStat "off_3rd_down_conv" else ctx
  else ctx

/-- The red-zone-trip dedup block, counting into `key` (`off_red_zone_trips`
for offense, `def_red_zone_trips_allowed` for the defensive mirror): count a
trip only when the drive id is not yet in the `rzDrives` set. -/
def rzTripBlock (key : String) (play : Play) (c : Ctx × EffState) : Ctx × EffState :=
  match play.yardline_100, play.fixed_drive <|> play.drive with
  | some y, some d =>
    if y ≤ 20 ∧ play.down = some 1 then
      if d ∈ c.2.rzDrives then c
      else (c.1.incrementStat key, { c.2 with rzDrives := c.2.rzDrives ++ [d] })
    else c
  | _, _ => c

/-- The red-zone-touchdown counter of `offensiveEfficiencyCalculator`. -/
def oeRzTdBlock (play : Play) (ctx : Ctx) : Ctx :=
  match play.yardline_100 with
  | some y =>
    if y ≤ 20 ∧ play.touchdown ∧ play.posteam = some ctx.team then
      ctx.incrementStat "off_red_zone_tds"
    else ctx
  | none => ctx

/-- The 4th-down counters of `offensiveEfficiencyCalculator.accumulate`. -/
def oeFourthDownBlock (play : Play) (ctx : Ctx) : Ctx :=
  if play.down = some 4 ∧ isOffPlayType play.play_type then
    let ctx := ctx.incrementStat "off_4th_down_att"
    if play.first_down then ctx.incrementStat "off_4th_down_conv" else ctx
  else ctx

def offensiveEfficiencyAccumulate (play : Play) (c : Ctx × EffState) : Ctx × EffState :=
  if play.posteam ≠ some c.1.team then c
  else
    let ctx := oeThirdDownBlock play (oeFirstDownsBlock play c.1)
    let rz := rzTripBlock "off_red_zone_trips" play (ctx, c.2)
    let ctx := oeRzTdBlock play rz.1
    let state := trackDrive play (play.fixed_drive <|> play.drive) rz.2
    (oeFourthDownBlock play ctx, state)

/-- The drive-score mapping of both efficiency finalizers. -/
def drivePoints (result : Option String) : ℚ :=
  match result with
  | some "Touchdown" => 7
  | some "Field goal" => 3
  | some "Safety" => 2
  | _ => 0

def offensiveEfficiencyFinalize (c : Ctx × EffState) : Ctx × EffState :=
  let ctx := c.1
  let state := c.2
  let att := ctx.stats.getD "off_3rd_down_att"
  let conv := ctx.stats.getD "off_3rd_down_conv"
  let ctx := if att > 0 then ctx.addStat "off_3rd_down_pct" (conv / att) else ctx
  let trips := ctx.stats.getD "off_red_zone_trips"
  let tds := ctx.stats.getD "off_red_zone_tds"
  let ctx := if trips > 0 then ctx.addStat "off_red_zone_td_pct" (tds / trips) else ctx
  let driveList := state.drives.map Prod.snd
  let driveCount : ℚ := driveList.length
  let ctx := ctx.addStat "off_drives" driveCount
  let tdDrives : ℚ := (driveList.filter (fun d => d.result = some "Touchdown")).length
  let fgDrives : ℚ := (driveList.filter (fun d => d.result = some "Field goal")).length
  let puntDrives : ℚ := (driveList.filter (fun d => d.result = some "Punt")).length
  let turnoverDrives : ℚ := (driveList.filter (fun d =>
    d.result = some "Turnover" ∨ d.result = some "Turnover on downs" ∨
      d.result = some "Opp touchdown" ∨ d.result = some "Safety")).length
  let ctx := ctx.addStat "off_td_drives" tdDrives
  let ctx := ctx.addStat "off_fg_drives" fgDrives
  let ctx := ctx.addStat "off_punt_drives" puntDrives
  let ctx := ctx.addStat "off_turnover_drives" turnoverDrives
  let threeAndOutDrives : ℚ := (driveList.filter (fun d =>
    match d.plays with
    | some p => p ≤ 3 ∧ d.first_downs.getD 0 = 0
    | none => False)).length
  let ctx := ctx.addStat "off_3_and_out_drives" threeAndOutDrives
  let ctx := ctx.addStat "off_3_and_out_rate" (safeDiv threeAndOutDrives driveCount)
  let totalDrivePoints := driveList.foldl (fun sum d => sum + drivePoints d.result) 0
  let ctx := ctx.addStat "off_points_per_drive" (safeDiv totalDrivePoints driveCount)
  let rushAtt := ctx.stats.getD "rush_att_off"
  let rushYds := ctx.stats.getD "rush_yds_off"
  let ctx := ctx.addStat "yards_per_rush_off" (safeDiv rushYds rushAtt)
  let passAtt := ctx.stats.getD "pass_att_off"
  let passCmp := ctx.stats.getD "pass_cmp_off"
  let passYds := ctx.stats.getD "pass_yds_off"
  let sacks := ctx.stats.getD "sacks_taken_off"
  let sackYds := ctx.stats.getD "sack_yards_lost_off"
  let offPlays := ctx.stats.getD "off_plays"
  let offYards := ctx.stats.getD "off_yards"
  let ctx := ctx.addStat "completion_pct_off" (safeDiv passCmp passAtt)
  let ctx := ctx.addStat "yards_per_play_off" (safeDiv offYards offPlays)
  let ctx := ctx.addStat "yards_per_pass_attempt_off" (safeDiv passYds passAtt)
  let ctx := ctx.addStat "net_yards_per_pass_attempt_off"
    (safeDiv (passYds - sackYds) (passAtt + sacks))
  let ctx := ctx.addStat "yards_per_play_off" (safeDiv offYards offPlays)
  let ctx := ctx.addStat "yards_per_rush_off" (safeDiv rushYds rushAtt)
  let ctx := ctx.addStat "off_points_per_drive" (safeDiv totalDrivePoints driveCount)
  let ctx := ctx.addStat "off_4th_down_pct"
    (safeDiv (ctx.stats.getD "off_4th_down_conv") (ctx.stats.getD "off_4th_down_att"))
  (ctx, state)

/-- `OFFENSE_EFFICIENCY_STATS`, the offense-efficiency scaffold's key list. -/
def OFFENSE_EFFICIENCY_STATS : List String :=
  ["off_3rd_down_att", "off_3rd_down_conv", "off_3rd_down_pct",
   "off_red_zone_trips", "off_red_zone_tds", "off_red_zone_td_pct",
   "yards_per_play_off", "yards_per_rush_off", "yards_per_pass_attempt_off",
   "net_yards_per_pass_attempt_off", "completion_pct_off",
   "off_drives", "off_points_per_drive", "off_td_drives", "off_fg_drives",
   "off_punt_drives", "off_turnover_drives", "off_3_and_out_drives",
   "off_3_and_out_rate", "off_4th_down_att", "off_4th_down_conv",
   "off_4th_down_pct"]

def defenseEfficiencyInit (c : Ctx × EffState) : Ctx × EffState :=
  let ctx := c.1
  let ctx := ctx.addStat "def_3rd_down_att" 0
  let ctx := ctx.addStat "def_3rd_down_conv" 0
  let ctx := ctx.addStat "def_red_zone_trips_allowed" 0
  let ctx := ctx.addStat "def_red_zone_tds_allowed" 0
  (ctx, {})

/-- The 3rd-down counters of `defenseEfficiencyCalculator.accumulate`. -/
def deThirdDownBlock (play : Play) (ctx : Ctx) : Ctx :=
  if play.down = some 3 ∧ isOffPlayType play.play_type then
    let ctx := ctx.incrementStat "def_3rd_down_att"
    if play.first_down then ctx.incrementStat "def_3rd_down_conv" else ctx
  else ctx

/-- The allowed-red-zone-touchdown counter of `defenseEfficiencyCalculator`. -/
def deRzTdBlock (play : Play) (ctx : Ctx) : Ctx :=
  match play.yardline_100 with
  | some y =>
    if y ≤ 20 ∧ play.touchdown ∧ play.posteam ≠ some ctx.team then
      ctx.incrementStat "def_red_zone_tds_allowed"
    else ctx
  | none => ctx

def defenseEfficiencyAccumulate (play : Play) (c : Ctx × EffState) : Ctx × EffState :=
  if play.defteam ≠ some c.1.team then c
  else
    let ctx := deThirdDownBlock play c.1
    let rz := rzTripBlock "def_red_zone_trips_allowed" play (ctx, c.2)
    let ctx := deRzTdBlock play rz.1
    let state := trackDrive play (play.fixed_drive <|> play.drive) rz.2
    (ctx, state)

def defenseEfficiencyFinalize (c : Ctx × EffState) : Ctx × EffState :=
  let ctx := c.1
  let state := c.2
  let dAtt := ctx.stats.getD "def_3rd_down_att"
  let dConv := ctx.stats.getD "def_3rd_down_conv"
  let ctx := ctx.addStat "def_3rd_down_pct" (safeDiv dConv dAtt)
  let rzTrips := ctx.stats.getD "def_red_zone_trips_allowed"
  let rzTds := ctx.stats.getD "def_red_zone_tds_allowed"
  let ctx := ctx.addStat "def_red_zone_td_pct_allowed" (safeDiv rzTds rzTrips)
  let driveList := state.drives.map Prod.snd
  let driveCount : ℚ := driveList.length
  let ctx := ctx.addStat "def_drives" driveCount
  let tdAllowed : ℚ := (driveList.filter (fun d => d.result = some "Touchdown")).length
  let fgAllowed : ℚ := (driveList.filter (fun d => d.result = some "Field goal")).length
  let ctx := ctx.addStat "def_td_drives_allowed" tdAllowed
  let ctx := ctx.addStat "def_fg_drives_allowed" fgAllowed
  let totalPointsAllowed := driveList.foldl (fun sum d => sum + drivePoints d.result) 0
  let ctx := ctx.addStat "def_points_per_drive" (safeDiv totalPointsAllowed driveCount)
  let ints := ctx.stats.getD "ints_def"
  let fumbles := ctx.stats.getD "fumble_recoveries_def"
  let takeaways := ints + fumbles
  let ctx := ctx.addStat "takeaways" takeaways
  let ctx := ctx.addStat "takeaways_per_game" takeaways
  let defPlays := ctx.stats.getD "def_plays"
  let defYards := ctx.stats.getD "def_yards_allowed"
  let rushAtt := ctx.stats.getD "rush_att_def"
  let rushYds := ctx.stats.getD "rush_yds_allowed"
  let passAtt := ctx.stats.getD "pass_att_def"
  let passCmp := ctx.stats.getD "pass_cmp_def"
  let passYds := ctx.stats.getD "pass_yds_allowed"
  let sacks := ctx.stats.getD "sacks_def"
  let sackYds := ctx.stats.getD "sack_yards_def"
  let ctx := ctx.addStat "yards_per_play_def" (safeDiv defYards defPlays)
  let ctx := ctx.addStat "yards_per_rush_def" (safeDiv rushYds rushAtt)
  let ctx := ctx.addStat "yards_per_pass_attempt_def" (safeDiv passYds passAtt)
  let ctx := ctx.addStat "net_yards_per_pass_attempt_def"
    (safeDiv (passYds + sackYds) (passAtt + sacks))
  let ctx := ctx.addStat "completion_pct_def" (safeDiv passCmp passAtt)
  (ctx, state)

theorem addStat_allowedStats (ctx : Ctx) (key : String) (value : ℚ) :
    (ctx.addStat key value).allowedStats = ctx.allowedStats := by
  unfold Ctx.addStat
  split <;> rfl

theorem lookup_ite (c : Prop) [Decidable c] (a b : StatBlock) (k : String) :
    (if c then a else b).lookup k = if c then a.lookup k else b.lookup k := by
  split <;> rfl

theorem getD_ite (c : Prop) [Decidable c] (a b : StatBlock) (k : String) :
    (if c then a else b).getD k = if c then a.getD k else b.getD k := by
  split <;> rfl

theorem stats_ite (c : Prop) [Decidable c] (a b : Ctx) :
    (if c then a else b).stats = if c then a.stats else b.stats := by
  split <;> rfl

theorem allowedStats_ite (c : Prop) [Decidable c] (a b : Ctx) :
    (if c then a else b).allowedStats = if c then a.allowedStats else b.allowedStats := by
  split <;> rfl

theorem scaffold_lookup_of_present {c : Ctx} {k : String} {v : ℚ} (L : List String)
    (h : c.stats.lookup k = some v) :
    (scaffoldFinalize L c).stats.lookup k = some v := by
  induction L generalizing c with
  | nil => exact h
  | cons hd t ih =>
    unfold scaffoldFinalize at ih ⊢
    simp only [List.foldl_cons]
    by_cases hk : c.stats.hasKey hd
    · rw [if_pos hk]
      exact ih h
    · rw [if_neg hk]
      refine ih ?_
      have hne : hd ≠ k := by
        intro he
        subst he
        simp [StatBlock.hasKey, h] at hk
      unfold Ctx.addStat
      split
      · simpa [StatBlock.lookup_set, hne] using h
      · exact h

theorem scaffold_lookup_of_absent {c : Ctx} {k : String} (L : List String)
    (hal : c.allowedStats = none) (h : c.stats.lookup k = none) (hk : k ∈ L) :
    (scaffoldFinalize L c).stats.lookup k = some 0 := by
  induction L generalizing c with
  | nil => simp at hk
  | cons hd t ih =>
    unfold scaffoldFinalize at ih ⊢
    simp only [List.foldl_cons]
    by_cases he : hd = k
    · subst he
      have hnk : ¬ c.stats.hasKey hd := by simp [StatBlock.hasKey, h]
      rw [if_neg hnk]
      have hstats : (c.addStat hd 0).stats = c.stats.set hd 0 :=
        addStat_stats_of_none c hd 0 hal
      exact scaffold_lookup_of_present t (by simp [hstats, StatBlock.lookup_set])
    · have hmem : k ∈ t := by
        rcases List.mem_cons.mp hk with h' | h'
        · exact absurd h'.symm he
        · exact h'
      by_cases hhd : c.stats.hasKey hd
      · rw [if_pos hhd]
        exact ih hal h hmem
      · rw [if_neg hhd]
        refine ih ?_ ?_ hmem
        · rw [addStat_allowedStats]
          exact hal
        · rw [addStat_stats_of_none c hd 0 hal]
          simpa [StatBlock.lookup_set, he] using h

/-- C5: every finalized rate stat maps a zero denominator to exactly `0` in
the output row: EPA per play/rush/pass and success rates
(`advancedEpaSuccessCalculator`), situational EPA rates
(`situationalLeverageCalculator`), 3rd/4th-down and red-zone percentages,
yards-per-X, rates per drive and points per drive
(`offensiveEfficiencyCalculator` composed with its zero-fill scaffold, and
`defenseEfficiencyCalculator`).  Rationals are total, so no `NaN` or
exception can arise; each division in the source is guarded (`safeDiv` or an
explicit `> 0` test). -/
theorem C5_division_by_zero_totality :
    (∀ ctx : Ctx, ctx.allowedStats = none →
      (ctx.stats.getD "off_plays" = 0 →
        (advancedEpaSuccessFinalize ctx).stats.lookup "off_epa_per_play" = some 0 ∧
        (advancedEpaSuccessFinalize ctx).stats.lookup "off_success_rate" = some 0) ∧
      (ctx.stats.getD "off_rush_plays" = 0 →
        (advancedEpaSuccessFinalize ctx).stats.lookup "off_epa_per_rush" = some 0) ∧
      (ctx.stats.getD "off_pass_plays" = 0 →
        (advancedEpaSuccessFinalize ctx).stats.lookup "off_epa_per_pass" = some 0) ∧
      (ctx.stats.getD "def_plays" = 0 →
        (advancedEpaSuccessFinalize ctx).stats.lookup "def_epa_per_play" = some 0 ∧
        (advancedEpaSuccessFinalize ctx).stats.lookup "def_success_rate" = some 0) ∧
      (ctx.stats.getD "def_rush_plays" = 0 →
        (advancedEpaSuccessFinalize ctx).stats.lookup "def_epa_per_rush" = some 0) ∧
      (ctx.stats.getD "def_pass_plays" = 0 →
        (advancedEpaSuccessFinalize ctx).stats.lookup "def_epa_per_pass" = some 0)) ∧
    (∀ ctx : Ctx, ctx.allowedStats = none →
      (ctx.stats.getD "_late_down_off_plays" = 0 →
        (situationalLeverageFinalize ctx).stats.lookup "late_down_epa_off" = some 0) ∧
      (ctx.stats.getD "_late_down_def_plays" = 0 →
        (situationalLeverageFinalize ctx).stats.lookup "late_down_epa_def" = some 0) ∧
      (ctx.stats.getD "_two_min_off_plays" = 0 →
        (situationalLeverageFinalize ctx).stats.lookup "two_min_epa_off" = some 0) ∧
      (ctx.stats.getD "_two_min_def_plays" = 0 →
        (situationalLeverageFinalize ctx).stats.lookup "two_min_epa_def" = some 0) ∧
      (ctx.stats.getD "_close_game_off_plays" = 0 →
        (situationalLeverageFinalize ctx).stats.lookup "close_game_epa_off" = some 0) ∧
      (ctx.stats.getD "_close_game_def_plays" = 0 →
        (situationalLeverageFinalize ctx).stats.lookup "close_game_epa_def" = some 0)) ∧
    (∀ (ctx : Ctx) (state : EffState), ctx.allowedStats = none →
      (ctx.stats.getD "off_3rd_down_att" = 0 → ctx.stats.hasKey "off_3rd_down_pct" = false →
        (scaffoldFinalize OFFENSE_EFFICIENCY_STATS
          (offensiveEfficiencyFinalize (ctx, state)).1).stats.lookup "off_3rd_down_pct"
          = some 0) ∧
      (ctx.stats.getD "off_red_zone_trips" = 0 → ctx.stats.hasKey "off_red_zone_td_pct" = false →
        (scaffoldFinalize OFFENSE_EFFICIENCY_STATS
          (offensiveEfficiencyFinalize (ctx, state)).1).stats.lookup "off_red_zone_td_pct"
          = some 0) ∧
      (ctx.stats.getD "off_4th_down_att" = 0 →
        (scaffoldFinalize OFFENSE_EFFICIENCY_STATS
          (offensiveEfficiencyFinalize (ctx, state)).1).stats.lookup "off_4th_down_pct"
          = some 0) ∧
      (state.drives = [] →
        (scaffoldFinalize OFFENSE_EFFICIENCY_STATS
          (offensiveEfficiencyFinalize (ctx, state)).1).stats.lookup "off_3_and_out_rate"
          = some 0 ∧
        (scaffoldFinalize OFFENSE_EFFICIENCY_STATS
          (offensiveEfficiencyFinalize (ctx, state)).1).stats.lookup "off_points_per_drive"
          = some 0) ∧
      (ctx.stats.getD "off_plays" = 0 →
        (scaffoldFinalize OFFENSE_EFFICIENCY_STATS
          (offensiveEfficiencyFinalize (ctx, state)).1).stats.lookup "yards_per_play_off"
          = some 0) ∧
      (ctx.stats.getD "rush_att_off" = 0 →
        (scaffoldFinalize OFFENSE_EFFICIENCY_STATS
          (offensiveEfficiencyFinalize (ctx, state)).1).stats.lookup "yards_per_rush_off"
          = some 0) ∧
      (ctx.stats.getD "pass_att_off" = 0 →
        (scaffoldFinalize OFFENSE_EFFICIENCY_STATS
          (offensiveEfficiencyFinalize (ctx, state)).1).stats.lookup "yards_per_pass_attempt_off"
          = some 0 ∧
        (scaffoldFinalize OFFENSE_EFFICIENCY_STATS
          (offensiveEfficiencyFinalize (ctx, state)).1).stats.lookup "completion_pct_off"
          = some 0) ∧
      (ctx.stats.getD "pass_att_off" = 0 → ctx.stats.getD "sacks_taken_off" = 0 →
        (scaffoldFinalize OFFENSE_EFFICIENCY_STATS
          (offensiveEfficiencyFinalize (ctx, state)).1).stats.lookup
            "net_yards_per_pass_attempt_off" = some 0)) ∧
    (∀ (ctx : Ctx) (state : EffState), ctx.allowedStats = none →
      (ctx.stats.getD "def_3rd_down_att" = 0 →
        (defenseEfficiencyFinalize (ctx, state)).1.stats.lookup "def_3rd_down_pct" = some 0) ∧
      (ctx.stats.getD "def_red_zone_trips_allowed" = 0 →
        (defenseEfficiencyFinalize (ctx, state)).1.stats.lookup "def_red_zone_td_pct_allowed"
          = some 0) ∧
      (state.drives = [] →
        (defenseEfficiencyFinalize (ctx, state)).1.stats.lookup "def_points_per_drive"
          = some 0) ∧
      (ctx.stats.getD "def_plays" = 0 →
        (defenseEfficiencyFinalize (ctx, state)).1.stats.lookup "yards_per_play_def" = some 0) ∧
      (ctx.stats.getD "rush_att_def" = 0 →
        (defenseEfficiencyFinalize (ctx, state)).1.stats.lookup "yards_per_rush_def" = some 0) ∧
      (ctx.stats.getD "pass_att_def" = 0 →
        (defenseEfficiencyFinalize (ctx, state)).1.stats.lookup "yards_per_pass_attempt_def"
          = some 0 ∧
        (defenseEfficiencyFinalize (ctx, state)).1.stats.lookup "completion_pct_def" = some 0) ∧
      (ctx.stats.getD "pass_att_def" = 0 → ctx.stats.getD "sacks_def" = 0 →
        (defenseEfficiencyFinalize (ctx, state)).1.stats.lookup "net_yards_per_pass_attempt_def"
          = some 0)) := by
  refine ⟨?_, ?_, ?_, ?_⟩
  · intro ctx hal
    refine ⟨fun h => ⟨?_, ?_⟩, fun h => ?_, fun h => ?_, fun h => ⟨?_, ?_⟩, fun h => ?_,
      fun h => ?_⟩ <;>
      simp [advancedEpaSuccessFinalize, Ctx.addStat, allowedWrite, hal,
        StatBlock.lookup_set, StatBlock.getD_set_ne, h, safeDiv_zero]
  · intro ctx hal
    refine ⟨fun h => ?_, fun h => ?_, fun h => ?_, fun h => ?_, fun h => ?_, fun h => ?_⟩ <;>
      simp [situationalLeverageFinalize, Ctx.addStat, allowedWrite, hal,
        StatBlock.lookup_set, StatBlock.getD_set_ne, h, safeDiv_zero]
  · intro ctx state hal
    have halF : (offensiveEfficiencyFinalize (ctx, state)).1.allowedStats = none := by
      simp [offensiveEfficiencyFinalize, addStat_allowedStats, allowedStats_ite, hal]
    refine ⟨fun h hk => ?_, fun h hk => ?_, fun h => ?_, fun h => ⟨?_, ?_⟩, fun h => ?_,
      fun h => ?_, fun h => ⟨?_, ?_⟩, fun h h' => ?_⟩
    · refine scaffold_lookup_of_absent _ halF ?_ (by decide)
      simp only [StatBlock.hasKey, Option.isSome] at hk
      have hnone : ctx.stats.lookup "off_3rd_down_pct" = none := by
        cases hcase : ctx.stats.lookup "off_3rd_down_pct" with
        | none => rfl
        | some v => rw [hcase] at hk; simp at hk
      simp [offensiveEfficiencyFinalize, Ctx.addStat, allowedWrite, hal, addStat_allowedStats,
        lookup_ite, stats_ite, allowedStats_ite, getD_ite, StatBlock.lookup_set,
        StatBlock.getD_set_ne, h, hnone]
    · refine scaffold_lookup_of_absent _ halF ?_ (by decide)
      simp only [StatBlock.hasKey, Option.isSome] at hk
      have hnone : ctx.stats.lookup "off_red_zone_td_pct" = none := by
        cases hcase : ctx.stats.lookup "off_red_zone_td_pct" with
        | none => rfl
        | some v => rw [hcase] at hk; simp at hk
      simp [offensiveEfficiencyFinalize, Ctx.addStat, allowedWrite, hal, addStat_allowedStats,
        lookup_ite, stats_ite, allowedStats_ite, getD_ite, StatBlock.lookup_set,
        StatBlock.getD_set_ne, h, hnone]
    · refine scaffold_lookup_of_present _ ?_
      simp [offensiveEfficiencyFinalize, Ctx.addStat, allowedWrite, hal, addStat_allowedStats,
        lookup_ite, stats_ite, allowedStats_ite, getD_ite, StatBlock.lookup_set,
        StatBlock.getD_set_ne, h, safeDiv_zero]
    · refine scaffold_lookup_of_present _ ?_
      simp [offensiveEfficiencyFinalize, Ctx.addStat, allowedWrite, hal, addStat_allowedStats,
        lookup_ite, stats_ite, allowedStats_ite, getD_ite, StatBlock.lookup_set,
        StatBlock.getD_set_ne, h, safeDiv_zero]
    · refine scaffold_lookup_of_present _ ?_
      simp [offensiveEfficiencyFinalize, Ctx.addStat, allowedWrite, hal, addStat_allowedStats,
        lookup_ite, stats_ite, allowedStats_ite, getD_ite, StatBlock.lookup_set,
        StatBlock.getD_set_ne, h, safeDiv_zero]
    · refine scaffold_lookup_of_present _ ?_
      simp [offensiveEfficiencyFinalize, Ctx.addStat, allowedWrite, hal, addStat_allowedStats,
        lookup_ite, stats_ite, allowedStats_ite, getD_ite, StatBlock.lookup_set,
        StatBlock.getD_set_ne, h, safeDiv_zero]
    · refine scaffold_lookup_of_present _ ?_
      simp [offensiveEfficiencyFinalize, Ctx.addStat, allowedWrite, hal, addStat_allowedStats,
        lookup_ite, stats_ite, allowedStats_ite, getD_ite, StatBlock.lookup_set,
        StatBlock.getD_set_ne, h, safeDiv_zero]
    · refine scaffold_lookup_of_present _ ?_
      simp [offensiveEfficiencyFinalize, Ctx.addStat, allowedWrite, hal, addStat_allowedStats,
        lookup_ite, stats_ite, allowedStats_ite, getD_ite, StatBlock.lookup_set,
        StatBlock.getD_set_ne, h, safeDiv_zero]
    · refine scaffold_lookup_of_present _ ?_
      simp [offensiveEfficiencyFinalize, Ctx.addStat, allowedWrite, hal, addStat_allowedStats,
        lookup_ite, stats_ite, allowedStats_ite, getD_ite, StatBlock.lookup_set,
        StatBlock.getD_set_ne, h, safeDiv_zero]
    · refine scaffold_lookup_of_present _ ?_
      simp [offensiveEfficiencyFinalize, Ctx.addStat, allowedWrite, hal, addStat_allowedStats,
        lookup_ite, stats_ite, allowedStats_ite, getD_ite, StatBlock.lookup_set,
        StatBlock.getD_set_ne, h, h', safeDiv_zero]
  · intro ctx state hal
    refine ⟨fun h => ?_, fun h => ?_, fun h => ?_, fun h => ?_, fun h => ?_,
      fun h => ⟨?_, ?_⟩, fun h h' => ?_⟩ <;>
      simp [defenseEfficiencyFinalize, Ctx.addStat, allowedWrite, hal,
        StatBlock.lookup_set, StatBlock.getD_set_ne, h, safeDiv_zero]
    all_goals simp [*, safeDiv_zero]

/-! ### `turnoversPenaltiesCalculator` (`calculators/turnovers_penalties.ts`) -/

def turnoversPenaltiesInit (ctx : Ctx) : Ctx :=
  let ctx := ctx.addStat "turnovers_off" 0
  let ctx := ctx.addStat "takeaways" 0
  let ctx := ctx.addStat "total_penalties" 0
  ctx.addStat "total_penalty_yards" 0

/-- `[play.fumble_recovery_1_team, play.fumble_recovery_2_team].filter(Boolean)`. -/
def recoveryTeams (play : Play) : List String :=
  ([play.fumble_recovery_1_team, play.fumble_recovery_2_team].filterMap id).filter
    (fun t => t ≠ "")

/-- The offensive-turnover block of `accumulate` (`ctx.team` never changes,
so the recovering-team comparison reads the block-entry team). -/
def tpOffBlock (play : Play) (ctx : Ctx) : Ctx :=
  if play.posteam = some ctx.team then
    let team := ctx.team
    let ctx := if play.interception then ctx.incrementStat "turnovers_off" else ctx
    if play.fumble then
      if (recoveryTeams play).length ≠ 0 ∧ (recoveryTeams play).all (fun t => t ≠ team) then
        ctx.incrementStat "turnovers_off"
      else ctx
    else ctx
  else ctx

/-- The defensive-takeaway block of `accumulate`. -/
def tpDefBlock (play : Play) (ctx : Ctx) : Ctx :=
  if play.defteam = some ctx.team then
    let team := ctx.team
    let ctx := if play.interception then ctx.incrementStat "takeaways" else ctx
    if play.fumble then
      if (recoveryTeams play).any (fun t => t = team) then ctx.incrementStat "takeaways"
      else ctx
    else ctx
  else ctx

/-- The penalty block of `accumulate`. -/
def tpPenaltyBlock (play : Play) (ctx : Ctx) : Ctx :=
  if play.penalty ∧ play.penalty_team = some ctx.team then
    let ctx := ctx.incrementStat "total_penalties"
    match play.penalty_yards with
    | some y => ctx.incrementStat "total_penalty_yards" y
    | none => ctx
  else ctx

def turnoversPenaltiesAccumulate (play : Play) (ctx : Ctx) : Ctx :=
  tpPenaltyBlock play (tpDefBlock play (tpOffBlock play ctx))

def turnoversPenaltiesFinalize (ctx : Ctx) : Ctx :=
  let takeaways := ctx.stats.getD "takeaways"
  let turnovers := ctx.stats.getD "turnovers_off"
  let margin := takeaways - turnovers
  let ctx := ctx.addStat "turnover_margin" margin
  let ctx := ctx.addStat "turnover_margin_per_game" margin
  let pens := ctx.stats.getD "total_penalties"
  let penYds := ctx.stats.getD "total_penalty_yards"
  (ctx.addStat "penalties_per_game" pens).addStat "penalty_yards_per_game" penYds

/-- `turnoversPenaltiesCalculator` assembled. -/
def turnoversPenaltiesCalculator : StatCalculator :=
  { name := "turnovers_penalties"
    init := turnoversPenaltiesInit
    accumulate := turnoversPenaltiesAccumulate
    finalize := turnoversPenaltiesFinalize }

/-- How many offensive-turnover increments one play contributes for `team`:
the team is on offense and threw an interception, and/or fumbled with a
listed recovering team none of which is itself (no listed recovering team
counts as not lost). -/
def offTurnoverCount (team : String) (play : Play) : ℚ :=
  if play.posteam = some team then
    (if play.interception then 1 else 0) +
      (if play.fumble ∧ (recoveryTeams play).length ≠ 0 ∧
          (recoveryTeams play).all (fun t => t ≠ team) then 1 else 0)
  else 0

/-- How many takeaway increments one play contributes for `team` (the
defensive mirror: interception, and/or fumble recovered by this defense). -/
def takeawayCount (team : String) (play : Play) : ℚ :=
  if play.defteam = some team then
    (if play.interception then 1 else 0) +
      (if play.fumble ∧ (recoveryTeams play).any (fun t => t = team) then 1 else 0)
  else 0

theorem incrementStat_team (c : Ctx) (k : String) (a : ℚ) :
    (c.incrementStat k a).team = c.team := by
  unfold Ctx.incrementStat
  split <;> rfl

theorem incrementStat_allowedStats (c : Ctx) (k : String) (a : ℚ) :
    (c.incrementStat k a).allowedStats = c.allowedStats := by
  unfold Ctx.incrementStat
  split <;> rfl

theorem incrementStat_getD_ne (c : Ctx) (key k : String) (a : ℚ) (h : k ≠ key) :
    (c.incrementStat key a).stats.getD k = c.stats.getD k := by
  unfold Ctx.incrementStat
  split <;> simp [StatBlock.getD_set_ne2 _ _ h]

theorem team_ite (c : Prop) [Decidable c] (a b : Ctx) :
    (if c then a else b).team = if c then a.team else b.team := by
  split <;> rfl

theorem incrementStat_stats_of_none' (c : Ctx) (k : String) (a : ℚ)
    (h : c.allowedStats = none) :
    (c.incrementStat k a).stats = c.stats.set k (c.stats.getD k + a) :=
  incrementStat_stats_of_none c k a h

theorem tpOffBlock_spec (p : Play) (c : Ctx) (hal : c.allowedStats = none) :
    (tpOffBlock p c).team = c.team ∧
    (tpOffBlock p c).allowedStats = none ∧
    (tpOffBlock p c).stats.getD "turnovers_off"
      = c.stats.getD "turnovers_off" + offTurnoverCount c.team p ∧
    (∀ k : String, k ≠ "turnovers_off" → (tpOffBlock p c).stats.getD k = c.stats.getD k) := by
  simp only [tpOffBlock, offTurnoverCount]
  refine ⟨?_, ?_, ?_, fun k hk => ?_⟩ <;> split_ifs <;>
    try simp_all [Ctx.incrementStat, allowedWrite,
      StatBlock.getD_set_self, StatBlock.getD_set_ne, StatBlock.getD_set_ne2]
  all_goals try ring_nf
  all_goals
    exfalso
    obtain ⟨-, -, hall⟩ :=
      ‹p.fumble = true ∧ ¬recoveryTeams p = [] ∧ ∀ x ∈ recoveryTeams p, ¬x = c.team›
    exact hall _ ‹c.team ∈ recoveryTeams p› rfl

theorem tpDefBlock_spec (p : Play) (c : Ctx) (hal : c.allowedStats = none) :
    (tpDefBlock p c).team = c.team ∧
    (tpDefBlock p c).allowedStats = none ∧
    (tpDefBlock p c).stats.getD "takeaways"
      = c.stats.getD "takeaways" + takeawayCount c.team p ∧
    (∀ k : String, k ≠ "takeaways" → (tpDefBlock p c).stats.getD k = c.stats.getD k) := by
  simp only [tpDefBlock, takeawayCount]
  refine ⟨?_, ?_, ?_, fun k hk => ?_⟩ <;> split_ifs <;>
    try simp_all [Ctx.incrementStat, allowedWrite,
      StatBlock.getD_set_self, StatBlock.getD_set_ne, StatBlock.getD_set_ne2]
  all_goals ring_nf

theorem tpPenaltyBlock_spec (p : Play) (c : Ctx) (hal : c.allowedStats = none) :
    (tpPenaltyBlock p c).team = c.team ∧
    (tpPenaltyBlock p c).allowedStats = none ∧
    (∀ k : String, k ≠ "total_penalties" → k ≠ "total_penalty_yards" →
      (tpPenaltyBlock p c).stats.getD k = c.stats.getD k) := by
  simp only [tpPenaltyBlock]
  cases hpy : p.penalty_yards <;>
    refine ⟨?_, ?_, fun k hk1 hk2 => ?_⟩ <;> split_ifs <;>
    simp_all [Ctx.incrementStat, allowedWrite,
      StatBlock.getD_set_self, StatBlock.getD_set_ne, StatBlock.getD_set_ne2]

theorem tp_accumulate_step (p : Play) (c : Ctx) (hal : c.allowedStats = none) :
    (turnoversPenaltiesAccumulate p c).team = c.team ∧
    (turnoversPenaltiesAccumulate p c).allowedStats = none ∧
    (turnoversPenaltiesAccumulate p c).stats.getD "turnovers_off"
      = c.stats.getD "turnovers_off" + offTurnoverCount c.team p ∧
    (turnoversPenaltiesAccumulate p c).stats.getD "takeaways"
      = c.stats.getD "takeaways" + takeawayCount c.team p := by
  obtain ⟨ht1, ha1, hv1, ho1⟩ := tpOffBlock_spec p c hal
  obtain ⟨ht2, ha2, hv2, ho2⟩ := tpDefBlock_spec p (tpOffBlock p c) ha1
  obtain ⟨ht3, ha3, ho3⟩ := tpPenaltyBlock_spec p (tpDefBlock p (tpOffBlock p c)) ha2
  unfold turnoversPenaltiesAccumulate
  refine ⟨by rw [ht3, ht2, ht1], ha3, ?_, ?_⟩
  · rw [ho3 _ (by decide) (by decide), ho2 _ (by decide), hv1]
  · rw [ho3 _ (by decide) (by decide), hv2, ho1 _ (by decide), ht1]

theorem addStat_team (c : Ctx) (k : String) (v : ℚ) :
    (c.addStat k v).team = c.team := by
  unfold Ctx.addStat
  split <;> rfl

theorem tp_fold_spec (plays : List Play) (c : Ctx) (hal : c.allowedStats = none) :
    (plays.foldl (fun acc p => turnoversPenaltiesAccumulate p acc) c).team = c.team ∧
    (plays.foldl (fun acc p => turnoversPenaltiesAccumulate p acc) c).allowedStats = none ∧
    (plays.foldl (fun acc p => turnoversPenaltiesAccumulate p acc) c).stats.getD "turnovers_off"
      = c.stats.getD "turnovers_off" + (plays.map (offTurnoverCount c.team)).sum ∧
    (plays.foldl (fun acc p => turnoversPenaltiesAccumulate p acc) c).stats.getD "takeaways"
      = c.stats.getD "takeaways" + (plays.map (takeawayCount c.team)).sum := by
  induction plays generalizing c with
  | nil => simp [hal]
  | cons p ps ih =>
    obtain ⟨ht, ha, hv, hw⟩ := tp_accumulate_step p c hal
    obtain ⟨iht, iha, ihv, ihw⟩ := ih (turnoversPenaltiesAccumulate p c) ha
    simp only [List.foldl_cons, List.map_cons, List.sum_cons]
    refine ⟨by rw [iht, ht], iha, ?_, ?_⟩
    · rw [ihv, ht, hv]
      ring
    · rw [ihw, ht, hw]
      ring

/-- C8: after running `turnoversPenaltiesCalculator` (`init`, any sequence of
`accumulate`, `finalize`), the finalized row satisfies
`turnover_margin = takeaways - turnovers_off` on its own stat values, where
`turnovers_off` counts interceptions thrown and fumbles lost by the offense
(a fumble with no listed recovering team is not lost) and `takeaways` counts
the defensive mirror. -/
theorem C8_turnover_margin_identity (ctx : Ctx) (plays : List Play)
    (hal : ctx.allowedStats = none) :
    (turnoversPenaltiesFinalize
        (plays.foldl (fun acc p => turnoversPenaltiesAccumulate p acc)
          (turnoversPenaltiesInit ctx))).stats.lookup "turnover_margin"
      = some ((turnoversPenaltiesFinalize
          (plays.foldl (fun acc p => turnoversPenaltiesAccumulate p acc)
            (turnoversPenaltiesInit ctx))).stats.getD "takeaways"
        - (turnoversPenaltiesFinalize
            (plays.foldl (fun acc p => turnoversPenaltiesAccumulate p acc)
              (turnoversPenaltiesInit ctx))).stats.getD "turnovers_off") ∧
    (turnoversPenaltiesFinalize
        (plays.foldl (fun acc p => turnoversPenaltiesAccumulate p acc)
          (turnoversPenaltiesInit ctx))).stats.getD "turnovers_off"
      = (plays.map (offTurnoverCount ctx.team)).sum ∧
    (turnoversPenaltiesFinalize
        (plays.foldl (fun acc p => turnoversPenaltiesAccumulate p acc)
          (turnoversPenaltiesInit ctx))).stats.getD "takeaways"
      = (plays.map (takeawayCount ctx.team)).sum := by
  have hinit_al : (turnoversPenaltiesInit ctx).allowedStats = none := by
    simp [turnoversPenaltiesInit, addStat_allowedStats, hal]
  have hinit_team : (turnoversPenaltiesInit ctx).team = ctx.team := by
    simp [turnoversPenaltiesInit, addStat_team]
  have hinit_to : (turnoversPenaltiesInit ctx).stats.getD "turnovers_off" = 0 := by
    simp [turnoversPenaltiesInit, Ctx.addStat, allowedWrite, hal, addStat_allowedStats,
      StatBlock.getD_set_self, StatBlock.getD_set_ne]
  have hinit_tk : (turnoversPenaltiesInit ctx).stats.getD "takeaways" = 0 := by
    simp [turnoversPenaltiesInit, Ctx.addStat, allowedWrite, hal, addStat_allowedStats,
      StatBlock.getD_set_self, StatBlock.getD_set_ne]
  obtain ⟨hft, hfa, hfv, hfw⟩ := tp_fold_spec plays (turnoversPenaltiesInit ctx) hinit_al
  rw [hinit_team] at hfv hfw
  rw [hinit_to, zero_add] at hfv
  rw [hinit_tk, zero_add] at hfw
  have hfin_to : ∀ c : Ctx, c.allowedStats = none →
      (turnoversPenaltiesFinalize c).stats.getD "turnovers_off"
        = c.stats.getD "turnovers_off" := by
    intro c ha
    simp [turnoversPenaltiesFinalize, Ctx.addStat, allowedWrite, ha, addStat_allowedStats,
      StatBlock.getD_set_ne]
  have hfin_tk : ∀ c : Ctx, c.allowedStats = none →
      (turnoversPenaltiesFinalize c).stats.getD "takeaways" = c.stats.getD "takeaways" := by
    intro c ha
    simp [turnoversPenaltiesFinalize, Ctx.addStat, allowedWrite, ha, addStat_allowedStats,
      StatBlock.getD_set_ne]
  have hfin_margin : ∀ c : Ctx, c.allowedStats = none →
      (turnoversPenaltiesFinalize c).stats.lookup "turnover_margin"
        = some (c.stats.getD "takeaways" - c.stats.getD "turnovers_off") := by
    intro c ha
    simp [turnoversPenaltiesFinalize, Ctx.addStat, allowedWrite, ha, addStat_allowedStats,
      StatBlock.lookup_set]
  refine ⟨?_, ?_, ?_⟩
  · rw [hfin_margin _ hfa, hfin_to _ hfa, hfin_tk _ hfa]
  · rw [hfin_to _ hfa, hfv]
  · rw [hfin_tk _ hfa, hfw]

/-- A context for the C8 witness. -/
def c8Ctx : Ctx := { team := "A" }

/-- Two plays for the C8 witness: an interception thrown by team `A`, and a
fumble by team `B` recovered by team `A`. -/
def c8Plays : List Play :=
  [{ posteam := some "A", defteam := some "B", interception := true },
   { posteam := some "B", defteam := some "A", fumble := true,
     fumble_recovery_1_team := some "A" }]

/-- Witness for C8 at a concrete input. -/
theorem C8_turnover_margin_identity_witness :
    (turnoversPenaltiesFinalize
        (c8Plays.foldl (fun acc p => turnoversPenaltiesAccumulate p acc)
          (turnoversPenaltiesInit c8Ctx))).stats.lookup "turnover_margin"
      = some ((turnoversPenaltiesFinalize
          (c8Plays.foldl (fun acc p => turnoversPenaltiesAccumulate p acc)
            (turnoversPenaltiesInit c8Ctx))).stats.getD "takeaways"
        - (turnoversPenaltiesFinalize
            (c8Plays.foldl (fun acc p => turnoversPenaltiesAccumulate p acc)
              (turnoversPenaltiesInit c8Ctx))).stats.getD "turnovers_off") ∧
    (turnoversPenaltiesFinalize
        (c8Plays.foldl (fun acc p => turnoversPenaltiesAccumulate p acc)
          (turnoversPenaltiesInit c8Ctx))).stats.getD "turnovers_off"
      = (c8Plays.map (offTurnoverCount c8Ctx.team)).sum ∧
    (turnoversPenaltiesFinalize
        (c8Plays.foldl (fun acc p => turnoversPenaltiesAccumulate p acc)
          (turnoversPenaltiesInit c8Ctx))).stats.getD "takeaways"
      = (c8Plays.map (takeawayCount c8Ctx.team)).sum :=
  C8_turnover_margin_identity c8Ctx c8Plays rfl

/-! ### C7: red-zone trip deduplication -/

/-- The drive id of a qualifying offensive red-zone entry for `team`, `none`
when the play does not qualify: the team must be on offense, the yardline
numeric and at most 20, the down exactly 1, and a drive id present
(`fixed_drive ?? drive`). -/
def rzEntryId (team : String) (play : Play) : Option DriveId :=
  match play.yardline_100, play.fixed_drive <|> play.drive with
  | some y, some d =>
    if play.posteam = some team ∧ y ≤ 20 ∧ play.down = some 1 then some d else none
  | _, _ => none

/-- The defensive mirror: the team must be on defense. -/
def rzEntryIdDef (team : String) (play : Play) : Option DriveId :=
  match play.yardline_100, play.fixed_drive <|> play.drive with
  | some y, some d =>
    if play.defteam = some team ∧ y ≤ 20 ∧ play.down = some 1 then some d else none
  | _, _ => none

/-- The `Set.add`-if-new step of the red-zone dedup. -/
def rzInsert (acc : List DriveId) (d? : Option DriveId) : List DriveId :=
  match d? with
  | some d => if d ∈ acc then acc else acc ++ [d]
  | none => acc

theorem rzInsert_nodup (acc : List DriveId) (d? : Option DriveId) (h : acc.Nodup) :
    (rzInsert acc d?).Nodup := by
  cases d? with
  | none => exact h
  | some d =>
    by_cases hm : d ∈ acc
    · simpa [rzInsert, hm] using h
    · simp [rzInsert, hm, List.nodup_append, h]

theorem rzInsert_foldl_nodup (l : List (Option DriveId)) (acc : List DriveId)
    (h : acc.Nodup) : (l.foldl rzInsert acc).Nodup := by
  induction l generalizing acc with
  | nil => exact h
  | cons x xs ih => exact ih _ (rzInsert_nodup acc x h)

theorem mem_rzInsert (acc : List DriveId) (d? : Option DriveId) (d : DriveId) :
    d ∈ rzInsert acc d? ↔ d ∈ acc ∨ d? = some d := by
  cases d? with
  | none => simp [rzInsert]
  | some d' =>
    by_cases hm : d' ∈ acc
    · simp only [rzInsert, if_pos hm, Option.some.injEq]
      constructor
      · exact fun h => Or.inl h
      · rintro (h | rfl)
        · exact h
        · exact hm
    · simp [rzInsert, hm, or_comm, eq_comm]

theorem mem_rzInsert_foldl (l : List (Option DriveId)) (acc : List DriveId) (d : DriveId) :
    d ∈ l.foldl rzInsert acc ↔ d ∈ acc ∨ some d ∈ l := by
  induction l generalizing acc with
  | nil => simp
  | cons x xs ih =>
    simp only [List.foldl_cons, ih, mem_rzInsert, List.mem_cons]
    constructor
    · rintro ((h | h) | h)
      · exact Or.inl h
      · exact Or.inr (Or.inl h.symm)
      · exact Or.inr (Or.inr h)
    · rintro (h | h | h)
      · exact Or.inl (Or.inl h)
      · exact Or.inl (Or.inr h.symm)
      · exact Or.inr h

theorem rzInsert_length (acc : List DriveId) (d? : Option DriveId) :
    ((rzInsert acc d?).length : ℚ)
      = acc.length + (match d? with
                      | some d => if d ∈ acc then 0 else 1
                      | none => 0) := by
  cases d? with
  | none => simp [rzInsert]
  | some d =>
    by_cases hm : d ∈ acc <;> simp [rzInsert, hm]

theorem trackDrive_rzDrives (p : Play) (d? : Option DriveId) (st : EffState) :
    (trackDrive p d? st).rzDrives = st.rzDrives := by
  cases d? <;> simp [trackDrive]

/-- `rzEntryId`/`rzEntryIdDef` with the team condition already known. -/
def rzEntryRaw (play : Play) : Option DriveId :=
  match play.yardline_100, play.fixed_drive <|> play.drive with
  | some y, some d => if y ≤ 20 ∧ play.down = some 1 then some d else none
  | _, _ => none

theorem rzEntryId_of_posteam (team : String) (p : Play) (h : p.posteam = some team) :
    rzEntryId team p = rzEntryRaw p := by
  unfold rzEntryId rzEntryRaw
  cases p.yardline_100 <;> cases p.fixed_drive <|> p.drive <;> simp [h]

theorem rzEntryId_of_not_posteam (team : String) (p : Play) (h : ¬ p.posteam = some team) :
    rzEntryId team p = none := by
  unfold rzEntryId
  cases p.yardline_100 <;> cases p.fixed_drive <|> p.drive <;> simp [h]

theorem rzEntryIdDef_of_defteam (team : String) (p : Play) (h : p.defteam = some team) :
    rzEntryIdDef team p = rzEntryRaw p := by
  unfold rzEntryIdDef rzEntryRaw
  cases p.yardline_100 <;> cases p.fixed_drive <|> p.drive <;> simp [h]

theorem rzEntryIdDef_of_not_defteam (team : String) (p : Play) (h : ¬ p.defteam = some team) :
    rzEntryIdDef team p = none := by
  unfold rzEntryIdDef
  cases p.yardline_100 <;> cases p.fixed_drive <|> p.drive <;> simp [h]

theorem oeFirstDownsBlock_spec (p : Play) (c : Ctx) (k : String)
    (hk : k ≠ "off_first_downs_total") :
    (oeFirstDownsBlock p c).team = c.team ∧
    (oeFirstDownsBlock p c).allowedStats = c.allowedStats ∧
    (oeFirstDownsBlock p c).stats.getD k = c.stats.getD k := by
  unfold oeFirstDownsBlock
  split_ifs <;>
    simp_all [incrementStat_team, incrementStat_allowedStats, incrementStat_getD_ne]

theorem oeThirdDownBlock_spec (p : Play) (c : Ctx) (k : String)
    (hk1 : k ≠ "off_3rd_down_att") (hk2 : k ≠ "off_3rd_down_conv") :
    (oeThirdDownBlock p c).team = c.team ∧
    (oeThirdDownBlock p c).allowedStats = c.allowedStats ∧
    (oeThirdDownBlock p c).stats.getD k = c.stats.getD k := by
  simp only [oeThirdDownBlock]
  split_ifs <;>
    simp_all [incrementStat_team, incrementStat_allowedStats, incrementStat_getD_ne]

theorem oeRzTdBlock_spec (p : Play) (c : Ctx) (k : String)
    (hk : k ≠ "off_red_zone_tds") :
    (oeRzTdBlock p c).team = c.team ∧
    (oeRzTdBlock p c).allowedStats = c.allowedStats ∧
    (oeRzTdBlock p c).stats.getD k = c.stats.getD k := by
  unfold oeRzTdBlock
  cases p.yardline_100 with
  | none => exact ⟨rfl, rfl, rfl⟩
  | some y =>
    dsimp only
    split_ifs <;>
      simp_all [incrementStat_team, incrementStat_allowedStats, incrementStat_getD_ne]

theorem oeFourthDownBlock_spec (p : Play) (c : Ctx) (k : String)
    (hk1 : k ≠ "off_4th_down_att") (hk2 : k ≠ "off_4th_down_conv") :
    (oeFourthDownBlock p c).team = c.team ∧
    (oeFourthDownBlock p c).allowedStats = c.allowedStats ∧
    (oeFourthDownBlock p c).stats.getD k = c.stats.getD k := by
  simp only [oeFourthDownBlock]
  split_ifs <;>
    simp_all [incrementStat_team, incrementStat_allowedStats, incrementStat_getD_ne]

theorem deThirdDownBlock_spec (p : Play) (c : Ctx) (k : String)
    (hk1 : k ≠ "def_3rd_down_att") (hk2 : k ≠ "def_3rd_down_conv") :
    (deThirdDownBlock p c).team = c.team ∧
    (deThirdDownBlock p c).allowedStats = c.allowedStats ∧
    (deThirdDownBlock p c).stats.getD k = c.stats.getD k := by
  simp only [deThirdDownBlock]
  split_ifs <;>
    simp_all [incrementStat_team, incrementStat_allowedStats, incrementStat_getD_ne]

theorem deRzTdBlock_spec (p : Play) (c : Ctx) (k : String)
    (hk : k ≠ "def_red_zone_tds_allowed") :
    (deRzTdBlock p c).team = c.team ∧
    (deRzTdBlock p c).allowedStats = c.allowedStats ∧
    (deRzTdBlock p c).stats.getD k = c.stats.getD k := by
  unfold deRzTdBlock
  cases p.yardline_100 with
  | none => exact ⟨rfl, rfl, rfl⟩
  | some y =>
    dsimp only
    split_ifs <;>
      simp_all [incrementStat_team, incrementStat_allowedStats, incrementStat_getD_ne]

theorem rzTripBlock_spec (key : String) (p : Play) (c : Ctx) (st : EffState)
    (hal : c.allowedStats = none) :
    (rzTripBlock key p (c, st)).1.team = c.team ∧
    (rzTripBlock key p (c, st)).1.allowedStats = none ∧
    (rzTripBlock key p (c, st)).2.rzDrives = rzInsert st.rzDrives (rzEntryRaw p) ∧
    (rzTripBlock key p (c, st)).1.stats.getD key
      = c.stats.getD key
        + (match rzEntryRaw p with
           | some d => if d ∈ st.rzDrives then 0 else 1
           | none => 0) := by
  unfold rzTripBlock rzEntryRaw
  rcases hy : p.yardline_100 with _ | y <;> rcases hd : p.fixed_drive <|> p.drive with _ | d
  · simp_all [rzInsert]
  · simp_all [rzInsert]
  · simp_all [rzInsert]
  · dsimp only
    split_ifs <;>
      simp_all [rzInsert, Ctx.incrementStat, allowedWrite, incrementStat_team,
        StatBlock.getD_set_self]

theorem oe_accumulate_step (p : Play) (c : Ctx) (st : EffState) (hal : c.allowedStats = none) :
    (offensiveEfficiencyAccumulate p (c, st)).1.team = c.team ∧
    (offensiveEfficiencyAccumulate p (c, st)).1.allowedStats = none ∧
    (offensiveEfficiencyAccumulate p (c, st)).2.rzDrives
      = rzInsert st.rzDrives (rzEntryId c.team p) ∧
    (offensiveEfficiencyAccumulate p (c, st)).1.stats.getD "off_red_zone_trips"
      = c.stats.getD "off_red_zone_trips"
        + (match rzEntryId c.team p with
           | some d => if d ∈ st.rzDrives then 0 else 1
           | none => 0) := by
  by_cases hpos : p.posteam = some c.team
  · rw [rzEntryId_of_posteam c.team p hpos]
    obtain ⟨hfT, hfA, hfV⟩ := oeFirstDownsBlock_spec p c "off_red_zone_trips" (by decide)
    obtain ⟨htT, htA, htV⟩ :=
      oeThirdDownBlock_spec p (oeFirstDownsBlock p c) "off_red_zone_trips"
        (by decide) (by decide)
    have hal3 : (oeThirdDownBlock p (oeFirstDownsBlock p c)).allowedStats = none := by
      rw [htA, hfA, hal]
    obtain ⟨hrT, hrA, hrS, hrV⟩ :=
      rzTripBlock_spec "off_red_zone_trips" p
        (oeThirdDownBlock p (oeFirstDownsBlock p c)) st hal3
    obtain ⟨hdT, hdA, hdV⟩ :=
      oeRzTdBlock_spec p
        (rzTripBlock "off_red_zone_trips" p
          (oeThirdDownBlock p (oeFirstDownsBlock p c), st)).1 "off_red_zone_trips" (by decide)
    obtain ⟨h4T, h4A, h4V⟩ :=
      oeFourthDownBlock_spec p
        (oeRzTdBlock p (rzTripBlock "off_red_zone_trips" p
          (oeThirdDownBlock p (oeFirstDownsBlock p c), st)).1) "off_red_zone_trips"
        (by decide) (by decide)
    simp only [offensiveEfficiencyAccumulate]
    rw [if_neg (not_not_intro hpos)]
    refine ⟨?_, ?_, ?_, ?_⟩
    · rw [h4T, hdT, hrT, htT, hfT]
    · rw [h4A, hdA, hrA]
    · rw [trackDrive_rzDrives, hrS]
    · rw [h4V, hdV, hrV, htV, hfV]
  · have hne : p.posteam ≠ some c.team := hpos
    rw [rzEntryId_of_not_posteam c.team p hpos]
    simp only [offensiveEfficiencyAccumulate]
    rw [if_pos hne]
    simp [rzInsert, hal]

theorem de_accumulate_step (p : Play) (c : Ctx) (st : EffState) (hal : c.allowedStats = none) :
    (defenseEfficiencyAccumulate p (c, st)).1.team = c.team ∧
    (defenseEfficiencyAccumulate p (c, st)).1.allowedStats = none ∧
    (defenseEfficiencyAccumulate p (c, st)).2.rzDrives
      = rzInsert st.rzDrives (rzEntryIdDef c.team p) ∧
    (defenseEfficiencyAccumulate p (c, st)).1.stats.getD "def_red_zone_trips_allowed"
      = c.stats.getD "def_red_zone_trips_allowed"
        + (match rzEntryIdDef c.team p with
           | some d => if d ∈ st.rzDrives then 0 else 1
           | none => 0) := by
  by_cases hpos : p.defteam = some c.team
  · rw [rzEntryIdDef_of_defteam c.team p hpos]
    obtain ⟨htT, htA, htV⟩ :=
      deThirdDownBlock_spec p c "def_red_zone_trips_allowed" (by decide) (by decide)
    have hal3 : (deThirdDownBlock p c).allowedStats = none := by rw [htA, hal]
    obtain ⟨hrT, hrA, hrS, hrV⟩ :=
      rzTripBlock_spec "def_red_zone_trips_allowed" p (deThirdDownBlock p c) st hal3
    obtain ⟨hdT, hdA, hdV⟩ :=
      deRzTdBlock_spec p
        (rzTripBlock "def_red_zone_trips_allowed" p (deThirdDownBlock p c, st)).1
        "def_red_zone_trips_allowed" (by decide)
    simp only [defenseEfficiencyAccumulate]
    rw [if_neg (not_not_intro hpos)]
    refine ⟨?_, ?_, ?_, ?_⟩
    · rw [hdT, hrT, htT]
    · rw [hdA, hrA]
    · rw [trackDrive_rzDrives, hrS]
    · rw [hdV, hrV, htV]
  · have hne : p.defteam ≠ some c.team := hpos
    rw [rzEntryIdDef_of_not_defteam c.team p hpos]
    simp only [defenseEfficiencyAccumulate]
    rw [if_pos hne]
    simp [rzInsert, hal]

theorem oe_fold_spec (plays : List Play) (c : Ctx) (st : EffState)
    (hal : c.allowedStats = none) :
    (plays.foldl (fun acc p => offensiveEfficiencyAccumulate p acc) (c, st)).1.team = c.team ∧
    (plays.foldl (fun acc p => offensiveEfficiencyAccumulate p acc) (c, st)).1.allowedStats
      = none ∧
    (plays.foldl (fun acc p => offensiveEfficiencyAccumulate p acc) (c, st)).2.rzDrives
      = (plays.map (rzEntryId c.team)).foldl rzInsert st.rzDrives ∧
    (plays.foldl (fun acc p =>
        offensiveEfficiencyAccumulate p acc) (c, st)).1.stats.getD "off_red_zone_trips"
      = c.stats.getD "off_red_zone_trips"
        + ((((plays.map (rzEntryId c.team)).foldl rzInsert st.rzDrives).length : ℚ)
           - (st.rzDrives.length : ℚ)) := by
  induction plays generalizing c st with
  | nil => simp [hal]
  | cons p ps ih =>
    simp only [List.foldl_cons, List.map_cons]
    obtain ⟨hT, hA, hS, hV⟩ := oe_accumulate_step p c st hal
    obtain ⟨ihT, ihA, ihS, ihV⟩ :=
      ih (offensiveEfficiencyAccumulate p (c, st)).1
        (offensiveEfficiencyAccumulate p (c, st)).2 hA
    rw [Prod.mk.eta] at ihT ihA ihS ihV
    refine ⟨by rw [ihT, hT], ihA, ?_, ?_⟩
    · rw [ihS, hS, hT]
    · rw [ihV, hV, hS, hT, rzInsert_length]
      ring

theorem de_fold_spec (plays : List Play) (c : Ctx) (st : EffState)
    (hal : c.allowedStats = none) :
    (plays.foldl (fun acc p => defenseEfficiencyAccumulate p acc) (c, st)).1.team = c.team ∧
    (plays.foldl (fun acc p => defenseEfficiencyAccumulate p acc) (c, st)).1.allowedStats
      = none ∧
    (plays.foldl (fun acc p => defenseEfficiencyAccumulate p acc) (c, st)).2.rzDrives
      = (plays.map (rzEntryIdDef c.team)).foldl rzInsert st.rzDrives ∧
    (plays.foldl (fun acc p =>
        defenseEfficiencyAccumulate p acc) (c, st)).1.stats.getD "def_red_zone_trips_allowed"
      = c.stats.getD "def_red_zone_trips_allowed"
        + ((((plays.map (rzEntryIdDef c.team)).foldl rzInsert st.rzDrives).length : ℚ)
           - (st.rzDrives.length : ℚ)) := by
  induction plays generalizing c st with
  | nil => simp [hal]
  | cons p ps ih =>
    simp only [List.foldl_cons, List.map_cons]
    obtain ⟨hT, hA, hS, hV⟩ := de_accumulate_step p c st hal
    obtain ⟨ihT, ihA, ihS, ihV⟩ :=
      ih (defenseEfficiencyAccumulate p (c, st)).1
        (defenseEfficiencyAccumulate p (c, st)).2 hA
    rw [Prod.mk.eta] at ihT ihA ihS ihV
    refine ⟨by rw [ihT, hT], ihA, ?_, ?_⟩
    · rw [ihS, hS, hT]
    · rw [ihV, hV, hS, hT, rzInsert_length]
      ring

/-- C7: red-zone trip deduplication. Starting a game context with an empty
red-zone drive set, after accumulating any list of plays the offensive
`off_red_zone_trips` counter (and the defensive mirror
`def_red_zone_trips_allowed`) has grown by exactly the length of a duplicate-free
list of drive ids, and a drive id is in that list iff some play of the list is a
qualifying red-zone entry for it (team on the right side, `yardline_100 ≤ 20`,
first down, resolvable drive id). In particular each unique drive id is counted
at most once — on its first qualifying play — no matter how many of its plays
are in the red zone. -/
theorem C7_red_zone_trip_dedup (plays : List Play) (c : Ctx) (st : EffState)
    (hal : c.allowedStats = none) (hrz : st.rzDrives = []) :
    ((plays.foldl (fun acc p =>
          offensiveEfficiencyAccumulate p acc) (c, st)).1.stats.getD "off_red_zone_trips"
        = c.stats.getD "off_red_zone_trips"
          + (((plays.map (rzEntryId c.team)).foldl rzInsert []).length : ℚ) ∧
      ((plays.map (rzEntryId c.team)).foldl rzInsert ([] : List DriveId)).Nodup ∧
      ∀ d : DriveId, d ∈ (plays.map (rzEntryId c.team)).foldl rzInsert []
        ↔ ∃ p ∈ plays, rzEntryId c.team p = some d) ∧
    ((plays.foldl (fun acc p =>
          defenseEfficiencyAccumulate p acc) (c, st)).1.stats.getD "def_red_zone_trips_allowed"
        = c.stats.getD "def_red_zone_trips_allowed"
          + (((plays.map (rzEntryIdDef c.team)).foldl rzInsert []).length : ℚ) ∧
      ((plays.map (rzEntryIdDef c.team)).foldl rzInsert ([] : List DriveId)).Nodup ∧
      ∀ d : DriveId, d ∈ (plays.map (rzEntryIdDef c.team)).foldl rzInsert []
        ↔ ∃ p ∈ plays, rzEntryIdDef c.team p = some d) := by
  constructor
  · obtain ⟨-, -, -, hV⟩ := oe_fold_spec plays c st hal
    rw [hrz] at hV
    refine ⟨by rw [hV]; simp, rzInsert_foldl_nodup _ _ List.nodup_nil, fun d => ?_⟩
    rw [mem_rzInsert_foldl]
    simp
  · obtain ⟨-, -, -, hV⟩ := de_fold_spec plays c st hal
    rw [hrz] at hV
    refine ⟨by rw [hV]; simp, rzInsert_foldl_nodup _ _ List.nodup_nil, fun d => ?_⟩
    rw [mem_rzInsert_foldl]
    simp

/-- Context, state and plays for the C7 witness: team A enters the red zone on
first down twice within the same drive (drive id 5), plus one more red-zone
first-down play on a different drive (drive id 6). -/
def c7Ctx : Ctx := { team := "A" }

def c7St : EffState := { rzDrives := [], drives := [] }

def c7Plays : List Play :=
  [ { posteam := some "A", defteam := some "B", yardline_100 := some 18,
      down := some 1, fixed_drive := some (DriveId.num 5) },
    { posteam := some "A", defteam := some "B", yardline_100 := some 3,
      down := some 1, fixed_drive := some (DriveId.num 5) },
    { posteam := some "A", defteam := some "B", yardline_100 := some 12,
      down := some 1, fixed_drive := some (DriveId.num 6) } ]

theorem C7_red_zone_trip_dedup_witness :
    c7Ctx.allowedStats = none ∧ c7St.rzDrives = [] ∧
    (((c7Plays.foldl (fun acc p =>
          offensiveEfficiencyAccumulate p acc) (c7Ctx, c7St)).1.stats.getD "off_red_zone_trips"
        = c7Ctx.stats.getD "off_red_zone_trips"
          + (((c7Plays.map (rzEntryId c7Ctx.team)).foldl rzInsert []).length : ℚ) ∧
      ((c7Plays.map (rzEntryId c7Ctx.team)).foldl rzInsert ([] : List DriveId)).Nodup ∧
      ∀ d : DriveId, d ∈ (c7Plays.map (rzEntryId c7Ctx.team)).foldl rzInsert []
        ↔ ∃ p ∈ c7Plays, rzEntryId c7Ctx.team p = some d) ∧
    ((c7Plays.foldl (fun acc p =>
          defenseEfficiencyAccumulate p acc) (c7Ctx, c7St)).1.stats.getD
            "def_red_zone_trips_allowed"
        = c7Ctx.stats.getD "def_red_zone_trips_allowed"
          + (((c7Plays.map (rzEntryIdDef c7Ctx.team)).foldl rzInsert []).length : ℚ) ∧
      ((c7Plays.map (rzEntryIdDef c7Ctx.team)).foldl rzInsert ([] : List DriveId)).Nodup ∧
      ∀ d : DriveId, d ∈ (c7Plays.map (rzEntryIdDef c7Ctx.team)).foldl rzInsert []
        ↔ ∃ p ∈ c7Plays, rzEntryIdDef c7Ctx.team p = some d)) :=
  ⟨rfl, rfl, C7_red_zone_trip_dedup c7Plays c7Ctx c7St rfl rfl⟩

/-! ### `computeTeamStatsForWeek` (`src/unnamed/part_002`) -/

/-- A `TeamWeekStatsRow` of `src/unnamed/part_002`. -/
structure TeamRow where
  season : String := ""
  week : String := ""
  game_id : String := ""
  team : String := ""
  stats : StatBlock := []

/-- The `Map` key: `const mapKey = gameId + "::" + team`. -/
def mapKey (gameId team : String) : String := gameId ++ "::" ++ team

/-- The `(game_id, posteam)` pair a play contributes to the map, `none` when
`if (!team || !gameId) continue` skips the play. -/
def playPair (p : Play) : Option (String × String) :=
  match p.game_id, p.posteam with
  | some g, some t => if g ≠ "" ∧ t ≠ "" then some (g, t) else none
  | _, _ => none

/-- `buildStatContext(entry, meta, allowedStats)` viewed functionally: the
context starts from the entry's fields; the mutations of `addStat` and
`incrementStat` are collected in `ctx.stats` and written back afterwards. -/
def ctxOfRow (row : TeamRow) (meta : Option GameMeta) (allowed : Option (List String)) : Ctx :=
  { season := row.season, week := row.week, game_id := row.game_id, team := row.team,
    stats := row.stats, meta := meta, allowedStats := allowed }

/-- `teamStatsByKey.get(key)` on the insertion-ordered entry list. -/
def findRow : List (String × TeamRow) → String → Option TeamRow
  | [], _ => none
  | kv :: rest, key => if kv.1 = key then some kv.2 else findRow rest key

/-- Write the mutated `entry.stats` back into the map, preserving order. -/
def setEntryStats (acc : List (String × TeamRow)) (key : String) (stats : StatBlock) :
    List (String × TeamRow) :=
  acc.map (fun kv => if kv.1 = key then (kv.1, { kv.2 with stats := stats }) else kv)

/-- The first-seen branch: `{ season, week, game_id, team, stats: {} }` with
every calculator's `init` run on its context. -/
def initRow (calcs : List StatCalculator) (metaLookup : String → Option GameMeta)
    (allowed : Option (List String)) (season week gameId team : String) : TeamRow :=
  { season := season, week := week, game_id := gameId, team := team,
    stats := (calcs.foldl (fun c k => k.init c)
      (ctxOfRow { season := season, week := week, game_id := gameId, team := team, stats := [] }
        (metaLookup gameId) allowed)).stats }

def insertIfNew (calcs : List StatCalculator) (metaLookup : String → Option GameMeta)
    (allowed : Option (List String)) (season week gameId team : String)
    (acc : List (String × TeamRow)) : List (String × TeamRow) :=
  if (findRow acc (mapKey gameId team)).isSome then acc
  else acc ++ [(mapKey gameId team, initRow calcs metaLookup allowed season week gameId team)]

def accumulateRow (calcs : List StatCalculator) (metaLookup : String → Option GameMeta)
    (allowed : Option (List String)) (gameId team : String) (row : Play)
    (acc : List (String × TeamRow)) : List (String × TeamRow) :=
  match findRow acc (mapKey gameId team) with
  | none => acc
  | some entry =>
      setEntryStats acc (mapKey gameId team)
        (calcs.foldl (fun c k => k.accumulate row c)
          (ctxOfRow entry (metaLookup gameId) allowed)).stats

/-- One iteration of the `for (const row of rows)` loop. -/
def processPlay (calcs : List StatCalculator) (metaLookup : String → Option GameMeta)
    (allowed : Option (List String)) (season week : String)
    (acc : List (String × TeamRow)) (row : Play) : List (String × TeamRow) :=
  match playPair row with
  | none => acc
  | some (gameId, team) =>
      accumulateRow calcs metaLookup allowed gameId team row
        (insertIfNew calcs metaLookup allowed season week gameId team acc)

/-- `computeTeamStatsForWeek`: build the keyed map over the plays, run every
calculator's `finalize` on each entry, return the values in insertion order. -/
def computeTeamStatsForWeek (rows : List Play) (season week : String)
    (calcs : List StatCalculator) (metaLookup : String → Option GameMeta)
    (allowed : Option (List String)) : List TeamRow :=
  (rows.foldl (processPlay calcs metaLookup allowed season week) []).map
    (fun kv =>
      { kv.2 with stats := (calcs.foldl (fun c k => k.finalize c)
          (ctxOfRow kv.2 (metaLookup kv.2.game_id) allowed)).stats })

/-- First-seen accumulation of the `(game_id, posteam)` pairs, mirroring the
`teamStatsByKey` insertion discipline. -/
def seenStep (acc : List (String × String)) (p : Play) : List (String × String) :=
  match playPair p with
  | some x => if x ∈ acc then acc else acc ++ [x]
  | none => acc

def observedPairs (rows : List Play) : List (String × String) :=
  rows.foldl seenStep []

theorem findRow_isSome_iff (acc : List (String × TeamRow)) (key : String) :
    (findRow acc key).isSome ↔ ∃ kv ∈ acc, kv.1 = key := by
  induction acc with
  | nil => simp [findRow]
  | cons kv rest ih =>
    by_cases h : kv.1 = key
    · simp [findRow, h]
    · simp [findRow, h, ih]

theorem findRow_append_right (acc : List (String × TeamRow)) (key : String) (r : TeamRow)
    (h : findRow acc key = none) : findRow (acc ++ [(key, r)]) key = some r := by
  induction acc with
  | nil => simp [findRow]
  | cons kv rest ih =>
    by_cases hk : kv.1 = key
    · simp [findRow, hk] at h
    · simp only [List.cons_append, findRow, if_neg hk] at h ⊢
      exact ih h

theorem setEntryStats_map_rowPair (acc : List (String × TeamRow)) (key : String)
    (stats : StatBlock) :
    (setEntryStats acc key stats).map (fun kv => (kv.2.game_id, kv.2.team))
      = acc.map (fun kv => (kv.2.game_id, kv.2.team)) := by
  unfold setEntryStats
  rw [List.map_map]
  refine List.map_congr_left ?_
  intro kv _
  by_cases h : kv.1 = key <;> simp [h]

theorem setEntryStats_keys (acc : List (String × TeamRow)) (key : String) (stats : StatBlock)
    (hkeys : ∀ kv ∈ acc, kv.1 = mapKey kv.2.game_id kv.2.team) :
    ∀ kv ∈ setEntryStats acc key stats, kv.1 = mapKey kv.2.game_id kv.2.team := by
  intro kv hm
  obtain ⟨kv', hm', he⟩ := List.mem_map.mp hm
  have hk' := hkeys kv' hm'
  by_cases h : kv'.1 = key
  · rw [if_pos h] at he
    rw [← he]
    simpa using hk'
  · rw [if_neg h] at he
    rw [← he]
    exact hk'

theorem processPlay_step (calcs : List StatCalculator) (metaLookup : String → Option GameMeta)
    (allowed : Option (List String)) (season week : String)
    (acc : List (String × TeamRow)) (p : Play)
    (hkeys : ∀ kv ∈ acc, kv.1 = mapKey kv.2.game_id kv.2.team)
    (hinj : ∀ x, playPair p = some x → ∀ kv ∈ acc,
      mapKey kv.2.game_id kv.2.team = mapKey x.1 x.2 → (kv.2.game_id, kv.2.team) = x) :
    (processPlay calcs metaLookup allowed season week acc p).map
        (fun kv => (kv.2.game_id, kv.2.team))
      = seenStep (acc.map (fun kv => (kv.2.game_id, kv.2.team))) p ∧
    ∀ kv ∈ processPlay calcs metaLookup allowed season week acc p,
      kv.1 = mapKey kv.2.game_id kv.2.team := by
  unfold processPlay seenStep
  cases hpp : playPair p with
  | none => exact ⟨rfl, hkeys⟩
  | some x =>
    obtain ⟨g, t⟩ := x
    unfold accumulateRow insertIfNew
    dsimp only
    by_cases hfind : (findRow acc (mapKey g t)).isSome
    · have hmem : (g, t) ∈ acc.map (fun kv => (kv.2.game_id, kv.2.team)) := by
        obtain ⟨kv, hkv, hkey⟩ := (findRow_isSome_iff acc (mapKey g t)).mp hfind
        have h1 := hkeys kv hkv
        have h2 := hinj (g, t) hpp kv hkv (by rw [← h1, hkey])
        exact List.mem_map.mpr ⟨kv, hkv, h2⟩
      rw [if_pos hfind, if_pos hmem]
      obtain ⟨entry, hentry⟩ := Option.isSome_iff_exists.mp hfind
      rw [hentry]
      exact ⟨setEntryStats_map_rowPair _ _ _, setEntryStats_keys _ _ _ hkeys⟩
    · have hnone : findRow acc (mapKey g t) = none := by
        cases hf : findRow acc (mapKey g t)
        · rfl
        · rw [hf] at hfind
          simp at hfind
      have hnmem : (g, t) ∉ acc.map (fun kv => (kv.2.game_id, kv.2.team)) := by
        intro hmem
        obtain ⟨kv, hkv, hpair⟩ := List.mem_map.mp hmem
        apply hfind
        refine (findRow_isSome_iff acc (mapKey g t)).mpr ⟨kv, hkv, ?_⟩
        rw [hkeys kv hkv]
        have h1 : kv.2.game_id = g := congrArg Prod.fst hpair
        have h2 : kv.2.team = t := congrArg Prod.snd hpair
        rw [h1, h2]
      rw [if_neg hfind, if_neg hnmem]
      rw [findRow_append_right acc (mapKey g t) _ hnone]
      have hkeys' : ∀ kv ∈ acc ++ [(mapKey g t,
          initRow calcs metaLookup allowed season week g t)],
          kv.1 = mapKey kv.2.game_id kv.2.team := by
        intro kv hkv
        rcases List.mem_append.mp hkv with hkv | hkv
        · exact hkeys kv hkv
        · simp only [List.mem_singleton] at hkv
          rw [hkv]
          rfl
      refine ⟨?_, setEntryStats_keys _ _ _ hkeys'⟩
      rw [setEntryStats_map_rowPair]
      simp [initRow]

theorem mem_seenStep (S : List (String × String)) (p : Play) (x : String × String)
    (h : x ∈ seenStep S p) : x ∈ S ∨ playPair p = some x := by
  unfold seenStep at h
  cases hpp : playPair p with
  | none =>
    rw [hpp] at h
    exact Or.inl h
  | some y =>
    rw [hpp] at h
    dsimp only at h
    by_cases hm : y ∈ S
    · rw [if_pos hm] at h
      exact Or.inl h
    · rw [if_neg hm] at h
      rcases List.mem_append.mp h with h | h
      · exact Or.inl h
      · simp only [List.mem_singleton] at h
        exact Or.inr (by rw [h])

theorem seenStep_nodup (S : List (String × String)) (p : Play) (h : S.Nodup) :
    (seenStep S p).Nodup := by
  unfold seenStep
  cases playPair p with
  | none => exact h
  | some y =>
    by_cases hm : y ∈ S
    · simpa [hm] using h
    · simpa [hm, List.nodup_append] using h

theorem seen_foldl_nodup (l : List Play) (S : List (String × String)) (h : S.Nodup) :
    (l.foldl seenStep S).Nodup := by
  induction l generalizing S with
  | nil => exact h
  | cons p ps ih => exact ih _ (seenStep_nodup S p h)

theorem mem_seen_foldl (l : List Play) (S : List (String × String)) (x : String × String) :
    x ∈ l.foldl seenStep S ↔ x ∈ S ∨ ∃ p ∈ l, playPair p = some x := by
  induction l generalizing S with
  | nil => simp
  | cons p ps ih =>
    simp only [List.foldl_cons, ih, List.mem_cons]
    constructor
    · rintro (hS | hp)
      · rcases mem_seenStep S p x hS with h | h
        · exact Or.inl h
        · exact Or.inr ⟨p, Or.inl rfl, h⟩
      · obtain ⟨q, hq, hx⟩ := hp
        exact Or.inr ⟨q, Or.inr hq, hx⟩
    · rintro (hS | ⟨q, hq | hq, hx⟩)
      · left
        unfold seenStep
        cases playPair p with
        | none => exact hS
        | some y =>
          by_cases hm : y ∈ S
          · simpa [hm] using hS
          · simp [hm, List.mem_append, hS]
      · left
        subst hq
        unfold seenStep
        rw [hx]
        by_cases hm : x ∈ S
        · simp [hm]
        · simp [hm]
      · exact Or.inr ⟨q, hq, hx⟩

theorem processPlay_fold (calcs : List StatCalculator) (metaLookup : String → Option GameMeta)
    (allowed : Option (List String)) (season week : String) (l : List Play)
    (P : List (String × String))
    (hP : ∀ x ∈ P, ∀ y ∈ P, mapKey x.1 x.2 = mapKey y.1 y.2 → x = y)
    (hl : ∀ p ∈ l, ∀ x, playPair p = some x → x ∈ P)
    (acc : List (String × TeamRow))
    (hkeys : ∀ kv ∈ acc, kv.1 = mapKey kv.2.game_id kv.2.team)
    (haccP : ∀ kv ∈ acc, (kv.2.game_id, kv.2.team) ∈ P) :
    (l.foldl (processPlay calcs metaLookup allowed season week) acc).map
        (fun kv => (kv.2.game_id, kv.2.team))
      = l.foldl seenStep (acc.map (fun kv => (kv.2.game_id, kv.2.team))) := by
  induction l generalizing acc with
  | nil => rfl
  | cons p ps ih =>
    have hinj : ∀ x, playPair p = some x → ∀ kv ∈ acc,
        mapKey kv.2.game_id kv.2.team = mapKey x.1 x.2 → (kv.2.game_id, kv.2.team) = x := by
      intro x hx kv hkv hk
      exact hP _ (haccP kv hkv) _ (hl p (List.mem_cons_self p ps) x hx) hk
    obtain ⟨hmap, hkeys'⟩ :=
      processPlay_step calcs metaLookup allowed season week acc p hkeys hinj
    have haccP' : ∀ kv ∈ processPlay calcs metaLookup allowed season week acc p,
        (kv.2.game_id, kv.2.team) ∈ P := by
      intro kv hkv
      have hmem : (kv.2.game_id, kv.2.team)
          ∈ (processPlay calcs metaLookup allowed season week acc p).map
              (fun kv => (kv.2.game_id, kv.2.team)) :=
        List.mem_map.mpr ⟨kv, hkv, rfl⟩
      rw [hmap] at hmem
      rcases mem_seenStep _ p _ hmem with h | h
      · obtain ⟨kv0, hkv0, hpair⟩ := List.mem_map.mp h
        rw [← hpair]
        exact haccP kv0 hkv0
      · exact hl p (List.mem_cons_self p ps) _ h
    simp only [List.foldl_cons]
    rw [ih (fun q hq x hx => hl q (List.mem_cons_of_mem p hq) x hx) _ hkeys' haccP', hmap]

/-- C2 counterexample: the map is keyed on `row.posteam` only. With the single
play `{game_id: "g", posteam: "A", defteam: "B"}`, team `B` is observed as the
defensive team, yet the output contains only the `("g", "A")` row — not one row
per `(game_id, team)` pair observed as offense OR defense. -/
def c2Play : Play :=
  { game_id := some "g", posteam := some "A", defteam := some "B" }

theorem C2_counterexample :
    c2Play.defteam = some "B" ∧
    (computeTeamStatsForWeek [c2Play] "2024" "05" [] (fun _ => none) none).map
        (fun r => (r.game_id, r.team)) = [("g", "A")] := by
  exact ⟨rfl, by decide⟩

/-- C2 (amended): `computeTeamStatsForWeek` emits exactly one row per distinct
`(game_id, posteam)` pair (both truthy) observed in the week's plays, in
first-seen insertion order; a team seen only as `defteam` gets no row. The
`mapKey` injectivity hypothesis rules out `"::"` collisions between the
observed pairs. -/
theorem C2_one_row_per_posteam_game (rows : List Play) (season week : String)
    (calcs : List StatCalculator) (metaLookup : String → Option GameMeta)
    (allowed : Option (List String))
    (hinj : ∀ p ∈ rows, ∀ q ∈ rows, ∀ x ∈ (playPair p).toList, ∀ y ∈ (playPair q).toList,
      mapKey x.1 x.2 = mapKey y.1 y.2 → x = y) :
    (computeTeamStatsForWeek rows season week calcs metaLookup allowed).map
        (fun r => (r.game_id, r.team))
      = observedPairs rows ∧
    (observedPairs rows).Nodup ∧
    (∀ x : String × String, x ∈ observedPairs rows ↔ ∃ p ∈ rows, playPair p = some x) := by
  have hchar : ∀ x : String × String,
      x ∈ observedPairs rows ↔ ∃ p ∈ rows, playPair p = some x := by
    intro x
    unfold observedPairs
    rw [mem_seen_foldl]
    simp
  refine ⟨?_, seen_foldl_nodup rows [] List.nodup_nil, hchar⟩
  unfold computeTeamStatsForWeek observedPairs
  rw [List.map_map]
  have hcomp : ((fun r : TeamRow => (r.game_id, r.team)) ∘ fun kv : String × TeamRow =>
      { kv.2 with stats := (calcs.foldl (fun c k => k.finalize c)
          (ctxOfRow kv.2 (metaLookup kv.2.game_id) allowed)).stats })
      = fun kv : String × TeamRow => (kv.2.game_id, kv.2.team) := by
    funext kv
    rfl
  rw [hcomp]
  have hP : ∀ x ∈ observedPairs rows, ∀ y ∈ observedPairs rows,
      mapKey x.1 x.2 = mapKey y.1 y.2 → x = y := by
    intro x hx y hy hk
    obtain ⟨p, hp, hxp⟩ := (hchar x).mp hx
    obtain ⟨q, hq, hyq⟩ := (hchar y).mp hy
    exact hinj p hp q hq x (by simp [hxp]) y (by simp [hyq]) hk
  have hl : ∀ p ∈ rows, ∀ x, playPair p = some x → x ∈ observedPairs rows := by
    intro p hp x hx
    exact (hchar x).mpr ⟨p, hp, hx⟩
  have := processPlay_fold calcs metaLookup allowed season week rows
    (observedPairs rows) hP hl [] (by simp) (by simp)
  simpa [observedPairs] using this

/-- Plays for the C2 witness: two games, three team-game pairs, with a repeat
appearance of `("g1", "A")` and a play skipped for its falsy game id. -/
def c2wPlays : List Play :=
  [ { game_id := some "g1", posteam := some "A", defteam := some "B" },
    { game_id := some "g1", posteam := some "B", defteam := some "A" },
    { game_id := some "g1", posteam := some "A", defteam := some "B" },
    { game_id := none, posteam := some "Z" },
    { game_id := some "g2", posteam := some "C" } ]

theorem C2_one_row_per_posteam_game_witness :
    (∀ p ∈ c2wPlays, ∀ q ∈ c2wPlays, ∀ x ∈ (playPair p).toList, ∀ y ∈ (playPair q).toList,
      mapKey x.1 x.2 = mapKey y.1 y.2 → x = y) ∧
    ((computeTeamStatsForWeek c2wPlays "2024" "05" [] (fun _ => none) none).map
        (fun r => (r.game_id, r.team))
      = observedPairs c2wPlays ∧
    (observedPairs c2wPlays).Nodup ∧
    (∀ x : String × String, x ∈ observedPairs c2wPlays ↔ ∃ p ∈ c2wPlays, playPair p = some x)) :=
  ⟨by decide, C2_one_row_per_posteam_game c2wPlays "2024" "05" [] (fun _ => none) none
    (by decide)⟩

/-! ### `writeWeekOutput` and the private-key allow-list bypass (C4) -/

/-- `writeWeekOutput` serializes the rows with `JSON.stringify(rows, null, 2)`
verbatim: the emitted content is the row list unchanged — no key is stripped. -/
def writeWeekOutput (rows : List TeamRow) : List TeamRow := rows

/-- C4 counterexample: with the `situationalLeverageCalculator` and a
configured allow-list, the row emitted by `writeWeekOutput` still contains the
private key `_late_down_off_plays` in its stats — private-prefixed keys bypass
the allow-list but are never excluded from the externally emitted rows. -/
def c4Play : Play :=
  { game_id := some "g", posteam := some "A", defteam := some "B",
    down := some 3, epa := some 1 }

def c4Allowed : Option (List String) :=
  some ["late_down_epa_off", "late_down_epa_def", "two_min_epa_off", "two_min_epa_def",
        "close_game_epa_off", "close_game_epa_def"]

theorem C4_counterexample :
    (writeWeekOutput (computeTeamStatsForWeek [c4Play] "2024" "05"
        [situationalLeverageCalculator] (fun _ => none) c4Allowed)).map
      (fun r => r.stats.hasKey "_late_down_off_plays") = [true] := by
  decide

/-- C4 (amended): the allow-list guard of `addStat`/`incrementStat` — a
`'_'`-prefixed key is always writable, bypassing any configured allow-list,
while a non-allowed key without the private prefix is silently dropped. -/
theorem C4_private_prefix_bypasses_allow_list (c : Ctx) (key : String) (v a : ℚ) :
    (isPrivateKey key = true →
      (c.addStat key v).stats = c.stats.set key v ∧
      (c.incrementStat key a).stats = c.stats.set key (c.stats.getD key + a)) ∧
    (∀ l, c.allowedStats = some l → key ∉ l → isPrivateKey key = false →
      (c.addStat key v).stats = c.stats ∧ (c.incrementStat key a).stats = c.stats) := by
  constructor
  · intro hpriv
    have hw : allowedWrite c.allowedStats key = true := by
      unfold allowedWrite
      cases c.allowedStats <;> simp [hpriv]
    exact ⟨by simp [Ctx.addStat, hw], by simp [Ctx.incrementStat, hw]⟩
  · intro l hl hmem hpriv
    have hw : allowedWrite c.allowedStats key = false := by
      unfold allowedWrite
      rw [hl]
      simp [hmem, hpriv]
    exact ⟨by simp [Ctx.addStat, hw], by simp [Ctx.incrementStat, hw]⟩

/-! ### `buildSeasonTrends` (`src/src/steps/03_build_trends.ts`, C1) -/

/-- A `DerivedRow` of `03_build_trends.ts`; `week` holds `Number(row.week)`
(`none` for `NaN`). -/
structure DerivedRow where
  season : String := ""
  week : Option ℚ := none
  game_id : String := ""
  team : String := ""
  stats : StatBlock := []
deriving DecidableEq

/-- A game-meta row as consumed by `buildSeasonTrends` (`week` is `meta.week`,
`none` when absent or nullish). -/
structure MetaRow where
  game_id : String := ""
  week : Option ℚ := none
  home_team : Option String := none
  away_team : Option String := none
deriving DecidableEq

structure HistoryEntry where
  week : ℚ
  gameId : String
  stats : StatBlock
deriving DecidableEq

/-- The object pushed onto `trendsForWeek` (its `stats.season` and
`stats.last5` blocks are the two overlaid averages). -/
structure TrendRow where
  season : String
  week : Option ℚ
  game_id : String
  team : String
  games_played : ℕ
  season_stats : StatBlock
  last5_stats : StatBlock
deriving DecidableEq

/-- One week file of a season: `meta = none` models a missing meta file, which
skips the whole week (derived rows unread). -/
structure WeekInput where
  meta : Option (List MetaRow) := none
  derived : List DerivedRow := []
deriving DecidableEq

/-- `averageStats`: per-key sums and counts over the blocks in order, then
`sums[key] / counts[key]` in the sums' key order. -/
def averageStats (games : List StatBlock) : StatBlock :=
  let sc := games.foldl
    (fun sc stats => stats.foldl
      (fun sc kv =>
        (sc.1.set kv.1 (sc.1.getD kv.1 + kv.2), sc.2.set kv.1 (sc.2.getD kv.1 + 1)))
      sc)
    (([], []) : StatBlock × StatBlock)
  sc.1.map (fun kv => (kv.1, kv.2 / sc.2.getD kv.1))

/-- `Number(meta?.week ?? row.week)`: the meta week when the game has a meta
row carrying one, else the row's own parsed week; `none` = `NaN` (row skipped). -/
def resolveWeek (metaM : String → Option MetaRow) (row : DerivedRow) : Option ℚ :=
  match metaM row.game_id with
  | some m =>
    match m.week with
    | some w => some w
    | none => row.week
  | none => row.week

/-- `metaRows.forEach((row) => { if (row?.game_id) metaByGameId.set(...) })`. -/
def addMeta (metaM : String → Option MetaRow) (rows : List MetaRow) :
    String → Option MetaRow :=
  rows.foldl
    (fun m r =>
      if r.game_id ≠ "" then fun g => if g = r.game_id then some r else m g else m)
    metaM

/-- One iteration of the `teamHistory.forEach` loop inside
`computeOpponentStrength`: the opponent average contributed by prior game `g`,
`none` when skipped. -/
def oppAvgEntry (metaM : String → Option MetaRow) (team : String) (currentWeek : ℚ)
    (historyByTeam : String → List HistoryEntry) (g : HistoryEntry) : Option StatBlock :=
  if g.week ≥ currentWeek then none
  else
    match metaM g.gameId with
    | none => none
    | some meta =>
      match (if meta.home_team = some team then meta.away_team else meta.home_team) with
      | none => none
      | some opp =>
        if opp = "" then none
        else
          let oppHistory := (historyByTeam opp).filter (fun h => h.week < currentWeek)
          if oppHistory = [] then none
          else some (averageStats (oppHistory.map (fun h => h.stats)))

/-- The all-zero fallback block of `computeOpponentStrength`. -/
def zeroOpp : StatBlock :=
  [("avg_opponent_off_epa_per_play", 0), ("avg_opponent_def_epa_per_play", 0),
   ("strength_of_schedule_simple", 0), ("strength_of_schedule_epa", 0)]

def computeOpponentStrength (teamHistory : List HistoryEntry)
    (metaM : String → Option MetaRow) (team : String) (currentWeek : ℚ)
    (historyByTeam : String → List HistoryEntry) : StatBlock :=
  let opponentAverages := teamHistory.filterMap (oppAvgEntry metaM team currentWeek historyByTeam)
  if opponentAverages = [] then zeroOpp
  else
    [("avg_opponent_off_epa_per_play",
        (opponentAverages.foldl (fun sum s => sum + s.getD "off_epa_per_play") 0)
          / (opponentAverages.length : ℚ)),
     ("avg_opponent_def_epa_per_play",
        (opponentAverages.foldl (fun sum s => sum + s.getD "def_epa_per_play") 0)
          / (opponentAverages.length : ℚ)),
     ("strength_of_schedule_simple",
        (opponentAverages.foldl (fun sum s => sum + s.getD "win_pct") 0)
          / (opponentAverages.length : ℚ)),
     ("strength_of_schedule_epa",
        (opponentAverages.foldl
            (fun sum s => sum + (s.getD "off_epa_per_play" + s.getD "def_epa_per_play")) 0)
          / (opponentAverages.length : ℚ))]

/-- The six in-place assignments performed on `seasonAvg` and `lastFiveAvg`
before the trend row is pushed. -/
def overlay (blk : StatBlock) (opp : StatBlock) (offAdj defAdj : ℚ) : StatBlock :=
  (((((blk.set "avg_opponent_off_epa_per_play" (opp.getD "avg_opponent_off_epa_per_play")).set
      "avg_opponent_def_epa_per_play" (opp.getD "avg_opponent_def_epa_per_play")).set
      "strength_of_schedule_simple" (opp.getD "strength_of_schedule_simple")).set
      "strength_of_schedule_epa" (opp.getD "strength_of_schedule_epa")).set
      "off_epa_per_play_adj" offAdj).set "def_epa_per_play_adj" defAdj

/-- The trend row computed for a derived row with resolved week `wk`, from the
state of `historyByTeam` BEFORE the row's own stats are appended. -/
def mkTrend (metaM : String → Option MetaRow) (hist : String → List HistoryEntry)
    (row : DerivedRow) (wk : ℚ) : TrendRow :=
  let priorGames := (hist row.team).filter (fun g => g.week < wk)
  let lastFiveGames := priorGames.drop (priorGames.length - 5)
  let seasonAvg := averageStats (priorGames.map (fun g => g.stats))
  let lastFiveAvg := averageStats (lastFiveGames.map (fun g => g.stats))
  let opp := computeOpponentStrength priorGames metaM row.team wk hist
  let offAdj := seasonAvg.getD "off_epa_per_play" - opp.getD "avg_opponent_def_epa_per_play"
  let defAdj := seasonAvg.getD "def_epa_per_play" - opp.getD "avg_opponent_off_epa_per_play"
  { season := row.season, week := row.week, game_id := row.game_id, team := row.team,
    games_played := priorGames.length,
    season_stats := overlay seasonAvg opp offAdj defAdj,
    last5_stats := overlay lastFiveAvg opp offAdj defAdj }

/-- `historyByTeam[row.team] = [...teamHistory, entry]`. -/
def updateHist (hist : String → List HistoryEntry) (team : String) (e : HistoryEntry) :
    String → List HistoryEntry :=
  fun t => if t = team then hist t ++ [e] else hist t

/-- One iteration of `derivedRows.forEach`: skip on `NaN` week, else emit the
trend row (annotated with its resolved week) and only then append the row's
own stats to its team history. -/
def processDerivedRow (metaM : String → Option MetaRow)
    (s : (String → List HistoryEntry) × List (ℚ × TrendRow)) (row : DerivedRow) :
    (String → List HistoryEntry) × List (ℚ × TrendRow) :=
  match resolveWeek metaM row with
  | none => s
  | some wk =>
    (updateHist s.1 row.team { week := wk, gameId := row.game_id, stats := row.stats },
     s.2 ++ [(wk, mkTrend metaM s.1 row wk)])

/-- `buildSeasonTrends` over the sorted week files, threading `metaByGameId`
and `historyByTeam`; a week without meta file is skipped wholesale. The
emitted trend rows are concatenated in order, each annotated with its resolved
week number. -/
def buildSeasonTrendsFrom (metaM : String → Option MetaRow)
    (hist : String → List HistoryEntry) : List WeekInput → List (ℚ × TrendRow)
  | [] => []
  | w :: ws =>
    match w.meta with
    | none => buildSeasonTrendsFrom metaM hist ws
    | some metas =>
      let res := (w.derived).foldl (processDerivedRow (addMeta metaM metas)) (hist, [])
      res.2 ++ buildSeasonTrendsFrom (addMeta metaM metas) res.1 ws

def buildSeasonTrends (ws : List WeekInput) : List TrendRow :=
  (buildSeasonTrendsFrom (fun _ => none) (fun _ => []) ws).map (fun x => x.2)

/-- Rows related below the cut `u`: same resolved week; strictly below `u` the
rows are identical, at or above `u` only the team must match (the stats — and
everything else — may change freely). -/
def rowRel (metaM : String → Option MetaRow) (u : ℚ) (r r' : DerivedRow) : Bool :=
  decide (resolveWeek metaM r = resolveWeek metaM r') &&
  match resolveWeek metaM r with
  | none => true
  | some w => if w < u then decide (r = r') else decide (r.team = r'.team)

/-- Week-file lists related below the cut `u`: identical meta files, and
pointwise `rowRel`-related derived rows (under the meta map in effect when the
file is processed). -/
def weeksRel (metaM : String → Option MetaRow) (u : ℚ) :
    List WeekInput → List WeekInput → Bool
  | [], [] => true
  | w :: ws, w' :: ws' =>
    decide (w.meta = w'.meta) &&
    (match w.meta with
     | none => weeksRel metaM u ws ws'
     | some metas =>
       (decide (w.derived.length = w'.derived.length) &&
         ((w.derived.zip w'.derived).all
           fun rr => rowRel (addMeta metaM metas) u rr.1 rr.2)) &&
       weeksRel (addMeta metaM metas) u ws ws')
  | _, _ => false

/-- Output rows related below the cut: same resolved week; fully equal below
`u`; equal `games_played`, season block and last5 block at week `u`. -/
def pairRel (u : ℚ) (a b : ℚ × TrendRow) : Prop :=
  a.1 = b.1 ∧ (a.1 < u → a.2 = b.2) ∧
  (a.1 ≤ u → a.2.games_played = b.2.games_played ∧
    a.2.season_stats = b.2.season_stats ∧ a.2.last5_stats = b.2.last5_stats)

def histRel (u : ℚ) (hist hist' : String → List HistoryEntry) : Prop :=
  ∀ t, (hist t).filter (fun g => g.week < u) = (hist' t).filter (fun g => g.week < u)

theorem pairRel_refl (u : ℚ) (a : ℚ × TrendRow) : pairRel u a a :=
  ⟨rfl, fun _ => rfl, fun _ => ⟨rfl, rfl, rfl⟩⟩

theorem forall2_append {R : α → β → Prop} {l1 l3 : List α} {l2 l4 : List β}
    (h : List.Forall₂ R l1 l2) (h' : List.Forall₂ R l3 l4) :
    List.Forall₂ R (l1 ++ l3) (l2 ++ l4) := by
  induction h with
  | nil => exact h'
  | cons hR _ ih => exact List.Forall₂.cons hR ih

theorem forall2_append_one {R : α → β → Prop} {l : List α} {l' : List β} {a : α} {b : β}
    (h : List.Forall₂ R l l') (hab : R a b) :
    List.Forall₂ R (l ++ [a]) (l' ++ [b]) :=
  forall2_append h (List.Forall₂.cons hab List.Forall₂.nil)

theorem filter_week_lt_subsume (l : List HistoryEntry) (w u : ℚ) (h : w ≤ u) :
    l.filter (fun g => g.week < w)
      = (l.filter (fun g => g.week < u)).filter (fun g => g.week < w) := by
  induction l with
  | nil => rfl
  | cons g t ih =>
    by_cases h1 : g.week < w
    · have h2 : g.week < u := lt_of_lt_of_le h1 h
      simp [List.filter_cons, h1, h2, ih]
    · by_cases h2 : g.week < u
      · simp [List.filter_cons, h1, h2, ih]
      · simp [List.filter_cons, h1, h2, ih]

theorem histRel_filter_lt (u w : ℚ) (hw : w ≤ u) (hist hist' : String → List HistoryEntry)
    (hh : histRel u hist hist') (t : String) :
    (hist t).filter (fun g => g.week < w) = (hist' t).filter (fun g => g.week < w) := by
  rw [filter_week_lt_subsume (hist t) w u hw, hh t,
    ← filter_week_lt_subsume (hist' t) w u hw]

theorem filterMap_congr_mem (l : List α) (f g : α → Option β) (h : ∀ a ∈ l, f a = g a) :
    l.filterMap f = l.filterMap g := by
  induction l with
  | nil => rfl
  | cons a t ih =>
    rw [List.filterMap_cons, List.filterMap_cons, h a (List.mem_cons_self a t),
      ih (fun b hb => h b (List.mem_cons_of_mem a hb))]

theorem oppAvgEntry_congr (metaM : String → Option MetaRow) (team : String) (w : ℚ)
    (hist hist' : String → List HistoryEntry)
    (hh : ∀ t, (hist t).filter (fun g => g.week < w) = (hist' t).filter (fun g => g.week < w))
    (g : HistoryEntry) :
    oppAvgEntry metaM team w hist g = oppAvgEntry metaM team w hist' g := by
  unfold oppAvgEntry
  simp only [hh]

theorem computeOpponentStrength_congr (pg : List HistoryEntry)
    (metaM : String → Option MetaRow) (team : String) (w : ℚ)
    (hist hist' : String → List HistoryEntry)
    (hh : ∀ t, (hist t).filter (fun g => g.week < w) = (hist' t).filter (fun g => g.week < w)) :
    computeOpponentStrength pg metaM team w hist
      = computeOpponentStrength pg metaM team w hist' := by
  unfold computeOpponentStrength
  rw [filterMap_congr_mem pg _ _ (fun g _ => oppAvgEntry_congr metaM team w hist hist' hh g)]

theorem mkTrend_congr_full (metaM : String → Option MetaRow)
    (hist hist' : String → List HistoryEntry) (row : DerivedRow) (wk : ℚ)
    (hh : ∀ t, (hist t).filter (fun g => g.week < wk) = (hist' t).filter (fun g => g.week < wk)) :
    mkTrend metaM hist row wk = mkTrend metaM hist' row wk := by
  simp only [mkTrend]
  rw [hh row.team, computeOpponentStrength_congr _ metaM row.team wk hist hist' hh]

theorem mkTrend_blocks_congr (metaM : String → Option MetaRow)
    (hist hist' : String → List HistoryEntry) (r r' : DerivedRow) (wk : ℚ)
    (hteam : r.team = r'.team)
    (hh : ∀ t, (hist t).filter (fun g => g.week < wk) = (hist' t).filter (fun g => g.week < wk)) :
    (mkTrend metaM hist r wk).games_played = (mkTrend metaM hist' r' wk).games_played ∧
    (mkTrend metaM hist r wk).season_stats = (mkTrend metaM hist' r' wk).season_stats ∧
    (mkTrend metaM hist r wk).last5_stats = (mkTrend metaM hist' r' wk).last5_stats := by
  have h1 : (hist r.team).filter (fun g => g.week < wk)
      = (hist' r'.team).filter (fun g => g.week < wk) := by
    rw [hteam]
    exact hh r'.team
  refine ⟨?_, ?_, ?_⟩ <;> simp only [mkTrend]
  · rw [h1]
  · rw [h1, hteam, computeOpponentStrength_congr _ metaM r'.team wk hist hist' hh]
  · rw [h1, hteam, computeOpponentStrength_congr _ metaM r'.team wk hist hist' hh]

theorem processDerivedRow_rel (metaM : String → Option MetaRow) (u : ℚ) (r r' : DerivedRow)
    (s s' : (String → List HistoryEntry) × List (ℚ × TrendRow))
    (hr : rowRel metaM u r r' = true)
    (hh : histRel u s.1 s'.1)
    (hacc : List.Forall₂ (pairRel u) s.2 s'.2) :
    histRel u (processDerivedRow metaM s r).1 (processDerivedRow metaM s' r').1 ∧
    List.Forall₂ (pairRel u) (processDerivedRow metaM s r).2 (processDerivedRow metaM s' r').2 := by
  rw [rowRel, Bool.and_eq_true, decide_eq_true_eq] at hr
  obtain ⟨hres, hrest⟩ := hr
  unfold processDerivedRow
  cases hw : resolveWeek metaM r with
  | none =>
    rw [hw] at hres
    rw [← hres]
    exact ⟨hh, hacc⟩
  | some w =>
    rw [hw] at hres hrest
    rw [← hres]
    dsimp only at hrest ⊢
    by_cases hwu : w < u
    · rw [if_pos hwu, decide_eq_true_eq] at hrest
      subst hrest
      constructor
      · intro t
        unfold updateHist
        by_cases ht : t = r.team
        · simp only [if_pos ht, List.filter_append, hh t]
        · simp only [if_neg ht]
          exact hh t
      · refine forall2_append_one hacc ?_
        rw [mkTrend_congr_full metaM s.1 s'.1 r w
          (fun t => histRel_filter_lt u w (le_of_lt hwu) _ _ hh t)]
        exact pairRel_refl u _
    · rw [if_neg hwu, decide_eq_true_eq] at hrest
      constructor
      · intro t
        unfold updateHist
        have he : List.filter (fun g => g.week < u)
            [({ week := w, gameId := r.game_id, stats := r.stats } : HistoryEntry)] = [] := by
          simp [hwu]
        have he' : List.filter (fun g => g.week < u)
            [({ week := w, gameId := r'.game_id, stats := r'.stats } : HistoryEntry)] = [] := by
          simp [hwu]
        by_cases ht : t = r.team
        · have ht' : t = r'.team := hrest ▸ ht
          rw [if_pos ht, if_pos ht', List.filter_append, List.filter_append, hh t, he, he']
        · have ht' : ¬ t = r'.team := fun hc => ht (hrest ▸ hc)
          rw [if_neg ht, if_neg ht']
          exact hh t
      · refine forall2_append_one hacc ?_
        refine ⟨rfl, fun hlt => absurd hlt hwu, fun hle => ?_⟩
        have hwequ : w = u := le_antisymm hle (le_of_not_lt hwu)
        subst hwequ
        exact mkTrend_blocks_congr metaM s.1 s'.1 r r' w hrest hh

theorem derived_fold_rel (metaM : String → Option MetaRow) (u : ℚ)
    (rows rows' : List DerivedRow) (hlen : rows.length = rows'.length)
    (hall : ((rows.zip rows').all fun rr => rowRel metaM u rr.1 rr.2) = true)
    (s s' : (String → List HistoryEntry) × List (ℚ × TrendRow))
    (hh : histRel u s.1 s'.1) (hacc : List.Forall₂ (pairRel u) s.2 s'.2) :
    histRel u (rows.foldl (processDerivedRow metaM) s).1
      (rows'.foldl (processDerivedRow metaM) s').1 ∧
    List.Forall₂ (pairRel u) (rows.foldl (processDerivedRow metaM) s).2
      (rows'.foldl (processDerivedRow metaM) s').2 := by
  induction rows generalizing rows' s s' with
  | nil =>
    cases rows' with
    | nil => exact ⟨hh, hacc⟩
    | cons _ _ => simp at hlen
  | cons r rows ih =>
    cases rows' with
    | nil => simp at hlen
    | cons r' rows'' =>
      simp only [List.zip_cons_cons, List.all_cons, Bool.and_eq_true] at hall
      obtain ⟨hr, hall'⟩ := hall
      obtain ⟨hh', hacc'⟩ := processDerivedRow_rel metaM u r r' s s' hr hh hacc
      simp only [List.foldl_cons]
      exact ih rows'' (by simpa using hlen) hall' _ _ hh' hacc'

theorem buildFrom_rel (u : ℚ) (ws : List WeekInput) :
    ∀ (ws' : List WeekInput) (metaM : String → Option MetaRow)
      (hist hist' : String → List HistoryEntry),
    weeksRel metaM u ws ws' = true → histRel u hist hist' →
    List.Forall₂ (pairRel u) (buildSeasonTrendsFrom metaM hist ws)
      (buildSeasonTrendsFrom metaM hist' ws') := by
  induction ws with
  | nil =>
    intro ws' metaM hist hist' hrel hh
    cases ws' with
    | nil => exact List.Forall₂.nil
    | cons _ _ => simp [weeksRel] at hrel
  | cons w ws ih =>
    intro ws' metaM hist hist' hrel hh
    cases ws' with
    | nil => simp [weeksRel] at hrel
    | cons w' ws'' =>
      unfold weeksRel at hrel
      rw [Bool.and_eq_true, decide_eq_true_eq] at hrel
      obtain ⟨hmeta, hrest⟩ := hrel
      unfold buildSeasonTrendsFrom
      cases hm : w.meta with
      | none =>
        rw [hm] at hrest hmeta
        rw [← hmeta]
        exact ih ws'' metaM hist hist' hrest hh
      | some metas =>
        rw [hm] at hrest hmeta
        rw [← hmeta]
        dsimp only at hrest ⊢
        rw [Bool.and_eq_true, Bool.and_eq_true, decide_eq_true_eq] at hrest
        obtain ⟨⟨hlen, hall⟩, hws⟩ := hrest
        obtain ⟨hh', hout⟩ := derived_fold_rel (addMeta metaM metas) u w.derived w'.derived
          hlen hall (hist, []) (hist', []) hh List.Forall₂.nil
        exact forall2_append hout (ih ws'' (addMeta metaM metas) _ _ hws hh')

/-- The claim's worked example: one team, weeks 1-4, `off_epa_per_play`
1/10, 2/10, 3/10 in weeks 1-3. -/
def c1Row (wk : ℚ) (g : String) (v : ℚ) : DerivedRow :=
  { season := "2024", week := some wk, game_id := g, team := "KC",
    stats := [("off_epa_per_play", v)] }

def c1Weeks : List WeekInput :=
  [ { meta := some [], derived := [c1Row 1 "g1" (1/10)] },
    { meta := some [], derived := [c1Row 2 "g2" (2/10)] },
    { meta := some [], derived := [c1Row 3 "g3" (3/10)] },
    { meta := some [], derived := [c1Row 4 "g4" (7/10)] } ]

/-- C1: no future leakage in `buildSeasonTrends`. For any cut week `u` and any
two runs whose week inputs agree on meta files and on every derived row with
resolved week below `u` (rows at or above `u` may change stats freely, keeping
only their team), the emitted trend streams align position by position: rows
with resolved week below `u` agree entirely, and at week `u` the
`games_played`, season-average and last5 blocks agree — the week-`u` row's own
stats are appended to history only after its trend is computed. In particular,
with `off_epa_per_play` 1/10, 2/10, 3/10 in weeks 1-3, the week-3 season
average is 3/20 = 0.15 over 2 games and the week-4 average is 1/5 = 0.2 over
3 games. -/
theorem C1_no_future_leakage (u : ℚ) (ws ws' : List WeekInput)
    (hrel : weeksRel (fun _ => none) u ws ws' = true) :
    List.Forall₂ (pairRel u)
      (buildSeasonTrendsFrom (fun _ => none) (fun _ => []) ws)
      (buildSeasonTrendsFrom (fun _ => none) (fun _ => []) ws') ∧
    (buildSeasonTrendsFrom (fun _ => none) (fun _ => []) c1Weeks).map
        (fun x => (x.1, x.2.games_played, x.2.season_stats.getD "off_epa_per_play"))
      = [(1, 0, 0), (2, 1, 1/10), (3, 2, 3/20), (4, 3, 1/5)] := by
  refine ⟨buildFrom_rel u ws ws' (fun _ => none) _ _ hrel (fun t => rfl), ?_⟩
  norm_num [c1Weeks, c1Row, buildSeasonTrendsFrom, addMeta, processDerivedRow, resolveWeek,
    updateHist, mkTrend, averageStats, computeOpponentStrength, oppAvgEntry, overlay, zeroOpp,
    StatBlock.set, StatBlock.getD, StatBlock.lookup]
  decide

/-- Inputs for the C1 witness: two identical two-week runs except the week-2
row's stats (week 2 = the cut), which change from 5 to 100. -/
def c1wWeeks : List WeekInput :=
  [ { meta := some [], derived :=
        [{ season := "2024", week := some 1, game_id := "h1", team := "A",
           stats := [("x", 3)] }] },
    { meta := some [], derived :=
        [{ season := "2024", week := some 2, game_id := "h2", team := "A",
           stats := [("x", 5)] }] } ]

def c1wWeeksAlt : List WeekInput :=
  [ { meta := some [], derived :=
        [{ season := "2024", week := some 1, game_id := "h1", team := "A",
           stats := [("x", 3)] }] },
    { meta := some [], derived :=
        [{ season := "2024", week := some 2, game_id := "h2", team := "A",
           stats := [("x", 100)] }] } ]

theorem C1_no_future_leakage_witness :
    weeksRel (fun _ => none) 2 c1wWeeks c1wWeeksAlt = true ∧
    (List.Forall₂ (pairRel 2)
      (buildSeasonTrendsFrom (fun _ => none) (fun _ => []) c1wWeeks)
      (buildSeasonTrendsFrom (fun _ => none) (fun _ => []) c1wWeeksAlt) ∧
    (buildSeasonTrendsFrom (fun _ => none) (fun _ => []) c1Weeks).map
        (fun x => (x.1, x.2.games_played, x.2.season_stats.getD "off_epa_per_play"))
      = [(1, 0, 0), (2, 1, 1/10), (3, 2, 3/20), (4, 3, 1/5)]) :=
  ⟨by decide, C1_no_future_leakage 2 c1wWeeks c1wWeeksAlt (by decide)⟩

end NflPbp
